import Mathlib

/-!
# Terarrium governance core — verification of the specification against the code

Shallow embedding of the governance core of the Terarrium repository:

* zone rule engine (`zone-rules.mjs`: `ZONE_RULES`, `checkZoneApproval`)
* agent response parser and review runner (`agent-runner.mjs`:
  `parseAgentResponse`, `runAgentReview`, `agenticChatResponse`, `executeTool`)
* review orchestrator (`orchestrator.mjs`: `runGovernanceReview`)
* pipeline state machine (`pipeline.mjs`: `findComponent`, `promoteComponent`,
  `logActivity`)
* decision ledger (`decision-memory.mjs`: `appendDecision`, `queryDecisions`)
* path safety validator (`file-safety.mjs`: `validateWritePath`)

JavaScript objects used as string-keyed maps are modelled as association
lists in insertion order; `obj[k]` is association-list lookup.  External
collaborators with no bearing on the verified control flow (the Anthropic
completion service, `JSON.parse`/`JSON.stringify`, the markdown fence
regex) are taken as explicit function parameters; every claim conditions
only on the observable outcome of those collaborators (ok / thrown error),
exactly as the source does.
-/

namespace Terarrium

/-! ## Zone rule engine (`zone-rules.mjs`) -/

/-- Result of `checkZoneApproval`: `{ passed, reason }`. -/
structure ApprovalResult where
  passed : Bool
  reason : String
deriving Repr, DecidableEq

/-- The per-zone governance flags of `ZONE_RULES` that `checkZoneApproval`
reads (`allowReject`, `majority`, `unanimous`, `agVeto`); the purely
descriptive fields (`label`, `mode`, `hIndex`, `timeBox`, `exitCriteria`)
are never consulted by the rule engine and are omitted. -/
structure ZoneRule where
  allowReject : Bool
  majority : Bool
  unanimous : Bool
  agVeto : Bool
deriving Repr, DecidableEq

/-- What a JS property read `ZONE_RULES[zone]` can yield besides
`undefined`: one of the three own-key rule records, or a truthy member
inherited from `Object.prototype` (e.g. `constructor`, `toString`,
`__proto__`) — a function or object on which every rule-flag read
(`agVeto`, `allowReject`, …) is `undefined`, i.e. falsy. -/
inductive ZoneRulesVal where
  | rule (r : ZoneRule)
  | protoMember
deriving Repr, DecidableEq

/-- `rules.allowReject` on the lookup result (`undefined`→falsy on an
inherited prototype member). -/
def ZoneRulesVal.allowReject : ZoneRulesVal → Bool
  | ZoneRulesVal.rule r => r.allowReject
  | ZoneRulesVal.protoMember => false

/-- `rules.majority` on the lookup result. -/
def ZoneRulesVal.majority : ZoneRulesVal → Bool
  | ZoneRulesVal.rule r => r.majority
  | ZoneRulesVal.protoMember => false

/-- `rules.unanimous` on the lookup result. -/
def ZoneRulesVal.unanimous : ZoneRulesVal → Bool
  | ZoneRulesVal.rule r => r.unanimous
  | ZoneRulesVal.protoMember => false

/-- `rules.agVeto` on the lookup result. -/
def ZoneRulesVal.agVeto : ZoneRulesVal → Bool
  | ZoneRulesVal.rule r => r.agVeto
  | ZoneRulesVal.protoMember => false

/-- The string-keyed members an object literal inherits from
`Object.prototype`, all truthy (functions, plus the `__proto__` accessor
yielding `Object.prototype` itself). -/
def OBJECT_PROTOTYPE_KEYS : List String :=
  ["constructor", "hasOwnProperty", "isPrototypeOf", "propertyIsEnumerable",
   "toLocaleString", "toString", "valueOf", "__proto__",
   "__defineGetter__", "__defineSetter__", "__lookupGetter__", "__lookupSetter__"]

/-- `ZONE_RULES[zone]`: the object literal holds the three active zones as
own keys; any other key resolves through the prototype chain — an
`Object.prototype` member name reads as a truthy inherited value, and only
the remaining strings read as `undefined`. -/
def ZONE_RULES (zone : String) : Option ZoneRulesVal :=
  if zone = "nursery" then
    some (ZoneRulesVal.rule
      { allowReject := false, majority := false, unanimous := false, agVeto := false })
  else if zone = "workshop" then
    some (ZoneRulesVal.rule
      { allowReject := true, majority := true, unanimous := false, agVeto := false })
  else if zone = "canopy" then
    some (ZoneRulesVal.rule
      { allowReject := true, majority := false, unanimous := true, agVeto := true })
  else if zone ∈ OBJECT_PROTOTYPE_KEYS then
    some ZoneRulesVal.protoMember
  else
    none

/-- A verdict map `agentId → verdict`, i.e. the JS object passed to
`checkZoneApproval`, as an association list in key-insertion order. -/
abbrev VerdictMap := List (String × String)

/-- `verdicts[a]` — JS property read, modelled as association-list lookup. -/
def vmGet (vm : VerdictMap) (a : String) : Option String := vm.lookup a

/-- `Object.keys(verdicts)` in insertion order. -/
def vmKeys (vm : VerdictMap) : List String := vm.map Prod.fst

/-- `agents.filter(a => verdicts[a] === 'approved')`. -/
def approvedAgents (vm : VerdictMap) : List String :=
  (vmKeys vm).filter (fun a => vmGet vm a == some "approved")

/-- `agents.filter(a => verdicts[a] === 'vetoed')`. -/
def vetoedAgents (vm : VerdictMap) : List String :=
  (vmKeys vm).filter (fun a => vmGet vm a == some "vetoed")

/-- `agents.filter(a => verdicts[a] !== 'approved')` — the `missing` list of
the unanimity branch. -/
def missingApprovals (vm : VerdictMap) : List String :=
  (vmKeys vm).filter (fun a => !(vmGet vm a == some "approved"))

/-- `checkZoneApproval(zone, verdicts)` from `zone-rules.mjs`, translated
clause for clause: unknown zone, AG absolute veto, permissive
(no-rejection) zone, unanimity, majority (`Math.ceil(n / 2)` is `(n+1)/2`
on naturals), trivial pass. -/
def checkZoneApproval (zone : String) (verdicts : VerdictMap) : ApprovalResult :=
  match ZONE_RULES zone with
  | none => { passed := false, reason := "Unknown zone: " ++ zone }
  | some rules =>
    if rules.agVeto && (vetoedAgents verdicts).contains "ag" then
      { passed := false, reason := "Accessibility Guardian has exercised absolute veto." }
    else if !rules.allowReject then
      { passed := true, reason := "Nursery: all ideas accepted for exploration." }
    else if rules.unanimous then
      let missing := missingApprovals verdicts
      if missing.length > 0 then
        { passed := false
          reason := "Unanimous required. Missing approval from: " ++ String.intercalate ", " missing }
      else
        { passed := true, reason := "Unanimous approval achieved." }
    else if rules.majority then
      let na := (approvedAgents verdicts).length
      let n := (vmKeys verdicts).length
      let needed := (n + 1) / 2
      if na ≥ needed then
        { passed := true, reason := "Majority achieved: " ++ toString na ++ "/" ++ toString n }
      else
        { passed := false
          reason := "Majority required: " ++ toString na ++ "/" ++ toString n
            ++ " (need " ++ toString needed ++ ")" }
    else
      { passed := true, reason := "No approval threshold defined." }

/-- The five-agent verdict map of the spec scenario for "Toggle":
`{ts: approved, ag: needs-work, pl: approved, ca: needs-work, px: approved}`. -/
def toggleVerdicts : VerdictMap :=
  [("ts", "approved"), ("ag", "needs-work"), ("pl", "approved"),
   ("ca", "needs-work"), ("px", "approved")]

theorem ZONE_RULES_canopy :
    ZONE_RULES "canopy"
      = some (ZoneRulesVal.rule
          { allowReject := true, majority := false, unanimous := true, agVeto := true }) := by
  rfl

theorem ZONE_RULES_workshop :
    ZONE_RULES "workshop"
      = some (ZoneRulesVal.rule
          { allowReject := true, majority := true, unanimous := false, agVeto := false }) := by
  rfl

theorem checkZoneApproval_canopy (vm : VerdictMap) :
    checkZoneApproval "canopy" vm =
      if (vetoedAgents vm).contains "ag" then
        { passed := false, reason := "Accessibility Guardian has exercised absolute veto." }
      else if (missingApprovals vm).length > 0 then
        { passed := false
          reason := "Unanimous required. Missing approval from: "
            ++ String.intercalate ", " (missingApprovals vm) }
      else
        { passed := true, reason := "Unanimous approval achieved." } := by
  unfold checkZoneApproval
  rw [ZONE_RULES_canopy]
  simp only [ZoneRulesVal.agVeto, ZoneRulesVal.allowReject, ZoneRulesVal.unanimous,
    ZoneRulesVal.majority, Bool.true_and, Bool.not_true, Bool.false_eq_true, if_false, if_true]

theorem checkZoneApproval_workshop (vm : VerdictMap) :
    checkZoneApproval "workshop" vm =
      if (approvedAgents vm).length ≥ ((vmKeys vm).length + 1) / 2 then
        { passed := true
          reason := "Majority achieved: " ++ toString (approvedAgents vm).length ++ "/"
            ++ toString (vmKeys vm).length }
      else
        { passed := false
          reason := "Majority required: " ++ toString (approvedAgents vm).length ++ "/"
            ++ toString (vmKeys vm).length
            ++ " (need " ++ toString (((vmKeys vm).length + 1) / 2) ++ ")" } := by
  unfold checkZoneApproval
  rw [ZONE_RULES_workshop]
  simp only [ZoneRulesVal.agVeto, ZoneRulesVal.allowReject, ZoneRulesVal.unanimous,
    ZoneRulesVal.majority, Bool.false_and, Bool.false_eq_true, if_false, Bool.not_true,
    Bool.true_eq_false, if_true]

theorem lookup_mem_keys {vm : VerdictMap} {k v : String} (h : vm.lookup k = some v) :
    k ∈ vmKeys vm := by
  induction vm with
  | nil => simp [List.lookup] at h
  | cons p rest ih =>
    rw [List.lookup] at h
    by_cases hk : k = p.1
    · simp [vmKeys, hk]
    · have : (k == p.1) = false := beq_false_of_ne hk
      rw [this] at h
      simp only [vmKeys, List.map_cons, List.mem_cons]
      exact Or.inr (ih h)

theorem vetoed_contains_ag {vm : VerdictMap} (h : vmGet vm "ag" = some "vetoed") :
    (vetoedAgents vm).contains "ag" = true := by
  have hmem : "ag" ∈ vetoedAgents vm := by
    rw [vetoedAgents, List.mem_filter]
    exact ⟨lookup_mem_keys h, by rw [h]; rfl⟩
  exact List.elem_eq_true_of_mem hmem

theorem not_vetoed_not_contains_ag {vm : VerdictMap} (h : vmGet vm "ag" ≠ some "vetoed") :
    (vetoedAgents vm).contains "ag" = false := by
  by_contra hc
  have hmem : "ag" ∈ vetoedAgents vm := by
    have := Bool.of_not_eq_false hc
    exact List.mem_of_elem_eq_true this
  rw [vetoedAgents, List.mem_filter] at hmem
  exact h (by simpa using hmem.2)

/-- C1: in the canopy zone (unanimous, veto-active), a `vetoed` verdict from
the designated veto agent `ag` makes `checkZoneApproval` fail, whatever the
other entries of the verdict map are. -/
theorem canopy_veto_always_fails (vm : VerdictMap) (h : vmGet vm "ag" = some "vetoed") :
    (checkZoneApproval "canopy" vm).passed = false := by
  rw [checkZoneApproval_canopy, vetoed_contains_ag h]
  simp

/-- Witness for C1 at the map where every agent but `ag` approved. -/
theorem canopy_veto_always_fails_witness :
    vmGet [("ts", "approved"), ("ag", "vetoed"), ("pl", "approved"),
           ("ca", "approved"), ("px", "approved")] "ag" = some "vetoed" ∧
    (checkZoneApproval "canopy"
      [("ts", "approved"), ("ag", "vetoed"), ("pl", "approved"),
       ("ca", "approved"), ("px", "approved")]).passed = false :=
  ⟨by decide,
   canopy_veto_always_fails
     [("ts", "approved"), ("ag", "vetoed"), ("pl", "approved"),
      ("ca", "approved"), ("px", "approved")] (by decide)⟩

/-- C3: workshop (majority) approval passes exactly when the number of
`approved` verdicts reaches `⌈total/2⌉`; with five agents three approvals
pass and two do not, and the Toggle scenario passes with a reason citing
"3/5". -/
theorem workshop_majority_threshold :
    (∀ vm : VerdictMap,
        (checkZoneApproval "workshop" vm).passed = true
          ↔ (approvedAgents vm).length ≥ ((vmKeys vm).length + 1) / 2) ∧
    (∀ vm : VerdictMap, (vmKeys vm).length = 5 → (approvedAgents vm).length = 3 →
        (checkZoneApproval "workshop" vm).passed = true) ∧
    (∀ vm : VerdictMap, (vmKeys vm).length = 5 → (approvedAgents vm).length = 2 →
        (checkZoneApproval "workshop" vm).passed = false) ∧
    checkZoneApproval "workshop" toggleVerdicts
      = { passed := true, reason := "Majority achieved: 3/5" } := by
  refine ⟨fun vm => ?_, fun vm h5 h3 => ?_, fun vm h5 h2 => ?_, by decide⟩
  · rw [checkZoneApproval_workshop]
    by_cases hge : (approvedAgents vm).length ≥ ((vmKeys vm).length + 1) / 2
    · simp [hge]
    · simp [hge]
  · rw [checkZoneApproval_workshop, h5, h3]
    decide
  · rw [checkZoneApproval_workshop, h5, h2]
    decide

/-- Witness for C3 at the Toggle verdict map (5 agents, 3 approvals). -/
theorem workshop_majority_threshold_witness :
    (vmKeys toggleVerdicts).length = 5 ∧ (approvedAgents toggleVerdicts).length = 3 ∧
    (checkZoneApproval "workshop" toggleVerdicts).passed = true :=
  ⟨by decide, by decide,
   workshop_majority_threshold.2.1 toggleVerdicts (by decide) (by decide)⟩

/-- C4: in the canopy zone, when the veto agent has not vetoed, approval
passes exactly when every verdict is `approved`; on failure the reason
lists every agent whose verdict is not `approved`, and the Toggle scenario
fails naming `ag` and `ca`. -/
theorem canopy_unanimity_characterization :
    (∀ vm : VerdictMap, vmGet vm "ag" ≠ some "vetoed" →
        ((checkZoneApproval "canopy" vm).passed = true
            ↔ ∀ a ∈ vmKeys vm, vmGet vm a = some "approved") ∧
        (missingApprovals vm ≠ [] →
          checkZoneApproval "canopy" vm =
            { passed := false
              reason := "Unanimous required. Missing approval from: "
                ++ String.intercalate ", " (missingApprovals vm) })) ∧
    checkZoneApproval "canopy" toggleVerdicts
      = { passed := false, reason := "Unanimous required. Missing approval from: ag, ca" } := by
  refine ⟨fun vm hv => ⟨?_, fun hm => ?_⟩, by decide⟩
  · rw [checkZoneApproval_canopy, not_vetoed_not_contains_ag hv]
    simp only [if_false, Bool.false_eq_true]
    constructor
    · intro hp
      by_cases hlen : (missingApprovals vm).length > 0
      · simp [hlen] at hp
      · intro a ha
        have hnil : missingApprovals vm = [] := by
          cases hml : missingApprovals vm with
          | nil => rfl
          | cons x xs => rw [hml] at hlen; simp at hlen
        have : a ∉ missingApprovals vm := by rw [hnil]; simp
        rw [missingApprovals, List.mem_filter] at this
        push_neg at this
        have hb := this ha
        have : (vmGet vm a == some "approved") = true := by
          cases hbeq : (vmGet vm a == some "approved") with
          | true => rfl
          | false => exact absurd (by rw [hbeq]; rfl) hb
        exact eq_of_beq this
    · intro hall
      have hnil : missingApprovals vm = [] := by
        rw [missingApprovals, List.filter_eq_nil_iff]
        intro a ha
        rw [hall a ha]
        decide
      simp [hnil]
  · rw [checkZoneApproval_canopy, not_vetoed_not_contains_ag hv]
    have hlen : (missingApprovals vm).length > 0 := List.length_pos_of_ne_nil hm
    simp [hlen]

/-- Witness for C4 at the Toggle verdict map (`ag` answered `needs-work`,
not `vetoed`). -/
theorem canopy_unanimity_characterization_witness :
    vmGet toggleVerdicts "ag" ≠ some "vetoed" ∧ missingApprovals toggleVerdicts ≠ [] ∧
    checkZoneApproval "canopy" toggleVerdicts =
      { passed := false
        reason := "Unanimous required. Missing approval from: "
          ++ String.intercalate ", " (missingApprovals toggleVerdicts) } :=
  ⟨by decide, by decide,
   (canopy_unanimity_characterization.1 toggleVerdicts (by decide)).2 (by decide)⟩

/-! ## Agent response parser (`agent-runner.mjs`: `parseAgentResponse`)

`JSON.parse` (together with the preceding `trim` and fenced-block
stripping, which only preprocess its input) is an external builtin: it is
modelled by the parameters `decode` (returning either the decoded payload
or the thrown `SyntaxError` message) and `clean` (the `trim` + fence-strip
preprocessing).  Every claim conditions only on the decode outcome. -/

/-- The structured `orpa` rationale `{observation, reflection, plan, action}`. -/
structure Orpa where
  observation : String
  reflection : String
  plan : String
  action : String
deriving Repr, DecidableEq

/-- The well-typed review object `parseAgentResponse` / `runAgentReview`
return.  `score` is an integer here (the claims only touch the integral
values 0 and 50 and the clamp bounds). -/
structure AgentReview where
  verdict : String
  score : Int
  orpa : Orpa
  dimensionScores : Option String
  analysis : String
  citations : List String
  conditionalApproval : Option String
  raw : String
deriving Repr, DecidableEq

/-- The fields `parseAgentResponse` reads off a successfully decoded JSON
object; `none` models an absent / non-matching field (`undefined`), and
`score = some s` models `typeof parsed.score === 'number'`. -/
structure AgentPayload where
  verdict : Option String := none
  score : Option Int := none
  orpaObservation : Option String := none
  orpaReflection : Option String := none
  orpaPlan : Option String := none
  orpaAction : Option String := none
  dimensionScores : Option String := none
  analysis : Option String := none
  citations : Option (List String) := none
  conditionalApproval : Option String := none
deriving Repr, DecidableEq

/-- JS `x || null` on an optional string: the empty string is falsy. -/
def jsOrNull (o : Option String) : Option String :=
  match o with
  | some s => if s = "" then none else some s
  | none => none

/-- `parseAgentResponse(raw, agentId)`: structured decode with graceful
fallback.  The success branch validates the verdict against
`['approved','needs-work','vetoed']`, clamps the score into `[0,100]`
(default 50), and defaults the text sub-fields; the catch branch returns
the conservative needs-work/0 marker object with the `SyntaxError` message
and the first 200 characters of the raw payload. -/
def parseAgentResponse (decode : String → Except String AgentPayload)
    (clean : String → String) (raw : String) (agentId : String) : AgentReview :=
  match decode (clean raw) with
  | .ok parsed =>
    { verdict :=
        match parsed.verdict with
        | some v => if v = "approved" ∨ v = "needs-work" ∨ v = "vetoed" then v else "needs-work"
        | none => "needs-work"
      score :=
        match parsed.score with
        | some s => max 0 (min 100 s)
        | none => 50
      orpa :=
        { observation := parsed.orpaObservation.getD ""
          reflection := parsed.orpaReflection.getD ""
          plan := parsed.orpaPlan.getD ""
          action := parsed.orpaAction.getD "" }
      dimensionScores := parsed.dimensionScores
      analysis := parsed.analysis.getD ""
      citations := parsed.citations.getD []
      conditionalApproval := jsOrNull parsed.conditionalApproval
      raw := raw }
  | .error errMsg =>
    { verdict := "needs-work"
      score := 0
      orpa :=
        { observation := "Response parsing failed"
          reflection := "The agent returned malformed JSON: " ++ errMsg
          plan := "Re-run this review"
          action := "Review deferred — response could not be parsed" }
      dimensionScores := none
      analysis := "Parse error: " ++ errMsg ++ ". Raw response (first 200 chars): "
        ++ raw.take 200
      citations := []
      conditionalApproval := none
      raw := raw }

/-- `runAgentReview(opts)`: one completion-service call whose outcome is
`completion` (`ok raw` for a successful API response, `error msg` for a
thrown transport/API error).  The catch branch returns the explicit
`api-unavailable` review with score 0 — never a synthetic verdict. -/
def runAgentReview (decode : String → Except String AgentPayload)
    (clean : String → String) (completion : Except String String)
    (agentId : String) : AgentReview :=
  match completion with
  | .ok raw => parseAgentResponse decode clean raw agentId
  | .error errMsg =>
    { verdict := "api-unavailable"
      score := 0
      orpa :=
        { observation := "API call failed"
          reflection := "Error: " ++ errMsg
          plan := "Retry when API is available"
          action := "Review deferred — API unavailable" }
      dimensionScores := none
      analysis := "API unavailable: " ++ errMsg
        ++ ". This review must be re-run when the Anthropic API is accessible. Per the Honesty Paradigm, no synthetic verdict is provided."
      citations := []
      conditionalApproval := none
      raw := "" }

/-- C5: whenever structured JSON decoding of the (fence-stripped) response
fails, `parseAgentResponse` returns `needs-work` with score 0 and an
analysis that states the parse failure and carries the first 200
characters of the raw payload — never `approved`. -/
theorem parse_failure_conservative (decode : String → Except String AgentPayload)
    (clean : String → String) (raw agentId errMsg : String)
    (h : decode (clean raw) = .error errMsg) :
    (parseAgentResponse decode clean raw agentId).verdict = "needs-work" ∧
    (parseAgentResponse decode clean raw agentId).score = 0 ∧
    (parseAgentResponse decode clean raw agentId).analysis
      = "Parse error: " ++ errMsg ++ ". Raw response (first 200 chars): " ++ raw.take 200 ∧
    (parseAgentResponse decode clean raw agentId).verdict ≠ "approved" := by
  unfold parseAgentResponse
  rw [h]
  refine ⟨rfl, rfl, rfl, ?_⟩
  show ("needs-work" : String) ≠ "approved"
  decide

/-- A decoder that always fails, as `JSON.parse` does on a non-JSON string. -/
def failDecode : String → Except String AgentPayload :=
  fun _ => .error "Unexpected token"

/-- Witness for C5 on the non-JSON input `"hello, not json"`. -/
theorem parse_failure_conservative_witness :
    failDecode (id "hello, not json") = .error "Unexpected token" ∧
    (parseAgentResponse failDecode id "hello, not json" "ts").verdict = "needs-work" ∧
    (parseAgentResponse failDecode id "hello, not json" "ts").score = 0 ∧
    (parseAgentResponse failDecode id "hello, not json" "ts").verdict ≠ "approved" :=
  ⟨rfl,
   (parse_failure_conservative failDecode id "hello, not json" "ts" "Unexpected token" rfl).1,
   (parse_failure_conservative failDecode id "hello, not json" "ts" "Unexpected token" rfl).2.1,
   (parse_failure_conservative failDecode id "hello, not json" "ts" "Unexpected token" rfl).2.2.2⟩

/-! ## Pipeline components and `findComponent` (`pipeline.mjs`) -/

/-- A pipeline component (the fields the verified operations consult;
`ctype` renders the JS field `type`, which is not a usable Lean field
name).  The `agentReviews` snapshot, `proposals` and `shielded` flag are
never read by the verified control flow and are omitted. -/
structure Component where
  id : String
  name : String
  ctype : String
  description : String
  zone : String
  maturity : String
  createdAt : String
  movedAt : String
deriving Repr, DecidableEq

/-- The pipeline document: one array per zone plus the monotonic id counter. -/
structure PipelineState where
  nursery : List Component
  workshop : List Component
  canopy : List Component
  stable : List Component
  nextId : Nat
deriving Repr, DecidableEq

/-- `state[zone].find(c => c.id === componentId || c.name.toLowerCase() ===
componentId.toLowerCase())`. -/
def findInZone (componentId : String) (comps : List Component) : Option Component :=
  comps.find? (fun c => c.id == componentId || c.name.toLower == componentId.toLower)

/-- `findComponent(componentId)`: scan the four zone arrays in order,
returning the component and its zone, or an explicit not-found. -/
def findComponent (st : PipelineState) (componentId : String) : Option (Component × String) :=
  match findInZone componentId st.nursery with
  | some c => some (c, "nursery")
  | none =>
    match findInZone componentId st.workshop with
    | some c => some (c, "workshop")
    | none =>
      match findInZone componentId st.canopy with
      | some c => some (c, "canopy")
      | none =>
        match findInZone componentId st.stable with
        | some c => some (c, "stable")
        | none => none

/-! ## Review orchestrator (`orchestrator.mjs`: `runGovernanceReview`) -/

/-- The fixed reviewer registry `AGENTS`, in source order (Token Steward,
A11y Guardian, Pattern Librarian, Component Architect, Product Liaison). -/
def AGENTS : List String := ["ts", "ag", "pl", "ca", "px"]

/-- The value `runGovernanceReview` resolves with (the fields the claims
consult).  The prompt text, static-analysis payload, decision id and
timestamps do not influence pass/fail control flow and are omitted;
persistence of the decision/activity records and the per-component
snapshot is modelled separately by the ledger and pipeline operations and
cannot make the function throw (each persist step is wrapped in its own
try/catch or `appendJSONL` catch in the source). -/
structure GovReviewResult where
  component : Component
  zone : String
  agentReviews : List (String × AgentReview)
  zoneVerdict : ApprovalResult
  overallVerdict : String
deriving Repr, DecidableEq

/-- `Object.entries(agentReviews).map(([id, r]) => [id, r.verdict])` — the
verdict map fed to `checkZoneApproval`. -/
def reviewVerdictMap (reviews : List (String × AgentReview)) : VerdictMap :=
  reviews.map (fun p => (p.1, p.2.verdict))

/-- `runGovernanceReview(componentId, options)`: resolve the component (the
only `throw`), take the effective zone (`options.zone || component.zone`,
with the empty string falsy), run the five agent reviews strictly in
`AGENTS` order — `oracle a` is the outcome of agent `a`'s completion call —
and aggregate via `checkZoneApproval`. -/
def runGovernanceReview (oracle : String → Except String String)
    (decode : String → Except String AgentPayload) (clean : String → String)
    (st : PipelineState) (componentId : String) (zoneOverride : Option String) :
    Except String GovReviewResult :=
  match findComponent st componentId with
  | none => .error ("Component not found: " ++ componentId)
  | some (component, _zoneFound) =>
    let zone :=
      match zoneOverride with
      | some z => if z = "" then component.zone else z
      | none => component.zone
    let agentReviews := AGENTS.map (fun a => (a, runAgentReview decode clean (oracle a) a))
    let zoneVerdict := checkZoneApproval zone (reviewVerdictMap agentReviews)
    .ok { component := component
          zone := zone
          agentReviews := agentReviews
          zoneVerdict := zoneVerdict
          overallVerdict := if zoneVerdict.passed then "approved" else "needs-work" }

theorem lookup_tabulate {β : Type} (f : String → β) :
    ∀ (l : List String) (a : String), a ∈ l →
      (l.map (fun x => (x, f x))).lookup a = some (f a) := by
  intro l
  induction l with
  | nil => intro a ha; simp at ha
  | cons x rest ih =>
    intro a ha
    by_cases hax : a = x
    · subst hax
      simp [List.lookup]
    · have : (a == x) = false := beq_false_of_ne hax
      have hmem : a ∈ rest := by
        rcases List.mem_cons.mp ha with h | h
        · exact absurd h hax
        · exact h
      simp [List.lookup, this, ih a hmem]

/-- C2: a thrown completion-service call degrades to the explicit
`api-unavailable` verdict with score 0 (never a fabricated
approved/needs-work/vetoed); the cycle still produces a review for every
configured agent, the unavailable verdict is excluded from the `approved`
filter of the zone aggregation, and `runGovernanceReview` throws exactly
when the component is not found. -/
theorem unavailable_verdict_never_faked (oracle : String → Except String String)
    (decode : String → Except String AgentPayload) (clean : String → String)
    (st : PipelineState) (componentId : String) (zoneOverride : Option String)
    (a errMsg : String) (ha : a ∈ AGENTS) (he : oracle a = .error errMsg) :
    ((runAgentReview decode clean (Except.error errMsg) a).verdict = "api-unavailable" ∧
     (runAgentReview decode clean (Except.error errMsg) a).score = 0 ∧
     (runAgentReview decode clean (Except.error errMsg) a).verdict ∉
       (["approved", "needs-work", "vetoed"] : List String)) ∧
    (∀ r : GovReviewResult,
        runGovernanceReview oracle decode clean st componentId zoneOverride = .ok r →
        vmKeys (reviewVerdictMap r.agentReviews) = AGENTS ∧
        r.agentReviews.lookup a = some (runAgentReview decode clean (oracle a) a) ∧
        vmGet (reviewVerdictMap r.agentReviews) a = some "api-unavailable" ∧
        a ∉ approvedAgents (reviewVerdictMap r.agentReviews) ∧
        r.zoneVerdict = checkZoneApproval r.zone (reviewVerdictMap r.agentReviews)) ∧
    (∀ msg : String,
        runGovernanceReview oracle decode clean st componentId zoneOverride = .error msg →
        findComponent st componentId = none ∧ msg = "Component not found: " ++ componentId) ∧
    (findComponent st componentId = none →
        runGovernanceReview oracle decode clean st componentId zoneOverride
          = .error ("Component not found: " ++ componentId)) := by
  refine ⟨⟨rfl, rfl, ?_⟩, ?_, ?_, ?_⟩
  · show ("api-unavailable" : String) ∉ (["approved", "needs-work", "vetoed"] : List String)
    decide
  · intro r hok
    cases hf : findComponent st componentId with
    | none => rw [runGovernanceReview, hf] at hok; cases hok
    | some pz =>
      rw [runGovernanceReview, hf] at hok
      obtain ⟨component, zoneFound⟩ := pz
      simp only [Except.ok.injEq] at hok
      subst hok
      dsimp only
      have hvm : reviewVerdictMap
          (AGENTS.map (fun x => (x, runAgentReview decode clean (oracle x) x)))
          = AGENTS.map (fun x =>
              (x, (runAgentReview decode clean (oracle x) x).verdict)) := by
        simp [reviewVerdictMap]
      have hget : vmGet (reviewVerdictMap
          (AGENTS.map (fun x => (x, runAgentReview decode clean (oracle x) x)))) a
          = some "api-unavailable" := by
        rw [vmGet, hvm, lookup_tabulate
          (fun x => (runAgentReview decode clean (oracle x) x).verdict) AGENTS a ha, he]
        rfl
      refine ⟨?_, ?_, hget, ?_, rfl⟩
      · rfl
      · exact lookup_tabulate
          (fun x => runAgentReview decode clean (oracle x) x) AGENTS a ha
      · intro hmem
        rw [approvedAgents, List.mem_filter] at hmem
        rw [hget] at hmem
        simp at hmem
  · intro msg herr
    cases hf : findComponent st componentId with
    | none =>
      rw [runGovernanceReview, hf] at herr
      simp only [Except.error.injEq] at herr
      exact ⟨rfl, herr.symm⟩
    | some pz =>
      rw [runGovernanceReview, hf] at herr
      obtain ⟨component, zoneFound⟩ := pz
      cases herr
  · intro hf
    rw [runGovernanceReview, hf]

/-- Concrete collaborators for the C2 witness: the decoder always fails and
the oracle throws for agent `ag` only. -/
def oracleW : String → Except String String :=
  fun a => if a = "ag" then .error "fetch failed" else .ok "raw text"

def decodeW : String → Except String AgentPayload :=
  fun _ => .error "SyntaxError: Unexpected token r"

def componentW : Component :=
  { id := "COMP-001", name := "Toggle", ctype := "ui-component"
    description := "switch a setting", zone := "workshop", maturity := "candidate"
    createdAt := "2025-01-01T00:00:00.000Z", movedAt := "2025-01-02T00:00:00.000Z" }

def pipelineW : PipelineState :=
  { nursery := [], workshop := [componentW], canopy := [], stable := [], nextId := 2 }

/-- Witness for C2 with the oracle that throws for `ag`. -/
theorem unavailable_verdict_never_faked_witness :
    "ag" ∈ AGENTS ∧ oracleW "ag" = .error "fetch failed" ∧
    (runAgentReview decodeW id (Except.error "fetch failed") "ag").verdict
      = "api-unavailable" ∧
    (runAgentReview decodeW id (Except.error "fetch failed") "ag").score = 0 :=
  ⟨by decide, rfl,
   (unavailable_verdict_never_faked oracleW decodeW id pipelineW "COMP-001" none
      "ag" "fetch failed" (by decide) rfl).1.1,
   (unavailable_verdict_never_faked oracleW decodeW id pipelineW "COMP-001" none
      "ag" "fetch failed" (by decide) rfl).1.2.1⟩

theorem ZONE_RULES_none (zone : String)
    (h1 : zone ≠ "nursery") (h2 : zone ≠ "workshop") (h3 : zone ≠ "canopy")
    (h4 : zone ∉ OBJECT_PROTOTYPE_KEYS) :
    ZONE_RULES zone = none := by
  rw [ZONE_RULES, if_neg h1, if_neg h2, if_neg h3, if_neg h4]

theorem checkZoneApproval_protoMember (zone : String)
    (hz : ZONE_RULES zone = some ZoneRulesVal.protoMember) (vm : VerdictMap) :
    checkZoneApproval zone vm
      = { passed := true, reason := "Nursery: all ideas accepted for exploration." } := by
  rw [checkZoneApproval, hz]
  rfl

/-- C10 counterexample: a zone string that names an `Object.prototype`
member resolves to a truthy inherited value in `ZONE_RULES[zone]`, the
`if (!rules)` guard does not fire, every rule flag reads as `undefined`,
and `checkZoneApproval` returns `passed = true` with the nursery reason —
it fails open, not closed, refuting the universally quantified claim. -/
theorem zone_prototype_fails_open_cx :
    checkZoneApproval "constructor" [("ts", "approved")]
      = { passed := true, reason := "Nursery: all ideas accepted for exploration." } ∧
    checkZoneApproval "__proto__" []
      = { passed := true, reason := "Nursery: all ideas accepted for exploration." } := by
  decide

/-- C10 (amended): `checkZoneApproval` is total, and fails closed with an
"Unknown zone" reason on every zone string outside its rule table that is
not an `Object.prototype` member name; on the prototype member names
(`constructor`, `toString`, `__proto__`, …) it instead fails open,
returning `passed = true` with the nursery reason.  The terminal zone
`stable` — a legal currentZone for components and the default zone used
by a review cycle — fails closed, so a review aggregated on a stable
component can never pass. -/
theorem unknown_zone_fails_closed (zone : String)
    (h1 : zone ≠ "nursery") (h2 : zone ≠ "workshop") (h3 : zone ≠ "canopy")
    (h4 : zone ∉ OBJECT_PROTOTYPE_KEYS) :
    (∀ vm : VerdictMap, checkZoneApproval zone vm
        = { passed := false, reason := "Unknown zone: " ++ zone }) ∧
    (∀ vm : VerdictMap, checkZoneApproval "stable" vm
        = { passed := false, reason := "Unknown zone: stable" }) ∧
    (∀ z ∈ OBJECT_PROTOTYPE_KEYS, ∀ vm : VerdictMap,
        checkZoneApproval z vm
          = { passed := true, reason := "Nursery: all ideas accepted for exploration." }) ∧
    (∀ (oracle : String → Except String String)
       (decode : String → Except String AgentPayload) (clean : String → String)
       (st : PipelineState) (componentId : String) (comp : Component) (zf : String)
       (r : GovReviewResult),
        findComponent st componentId = some (comp, zf) → comp.zone = "stable" →
        runGovernanceReview oracle decode clean st componentId none = .ok r →
        r.zoneVerdict.passed = false) := by
  have hstable : ∀ vm : VerdictMap, checkZoneApproval "stable" vm
      = { passed := false, reason := "Unknown zone: stable" } := by
    intro vm
    have hz : ZONE_RULES "stable" = none := rfl
    rw [checkZoneApproval, hz]
    rfl
  refine ⟨fun vm => ?_, hstable, ?_, ?_⟩
  · rw [checkZoneApproval, ZONE_RULES_none zone h1 h2 h3 h4]
  · intro z hz vm
    have hproto : ZONE_RULES z = some ZoneRulesVal.protoMember := by
      fin_cases hz <;> rfl
    exact checkZoneApproval_protoMember z hproto vm
  · intro oracle decode clean st componentId comp zf r hfind hzone hok
    rw [runGovernanceReview, hfind] at hok
    simp only [Except.ok.injEq] at hok
    subst hok
    simp only [hzone]
    rw [hstable]

/-- Witness for C10 at the zone string `"stable"` itself. -/
theorem unknown_zone_fails_closed_witness :
    checkZoneApproval "stable" [("ts", "approved")]
      = { passed := false, reason := "Unknown zone: stable" } :=
  (unknown_zone_fails_closed "stable" (by decide) (by decide) (by decide) (by decide)).2.1
    [("ts", "approved")]

/-! ## Pipeline transitions (`pipeline.mjs`: `logActivity`, `promoteComponent`) -/

/-- One line of the append-only activity log (`logActivity`'s entry). -/
structure ActivityEntry where
  timestamp : String
  action : String
  componentId : Option String
  componentName : Option String
  actor : String
  detail : String
deriving Repr, DecidableEq

/-- The pipeline document together with the activity-log file state:
`activityLogExists` models `existsSync(ACTIVITY_LOG)` and `activity` the
log's lines. -/
structure PipelineEnv where
  pipeline : PipelineState
  activityLogExists : Bool
  activity : List ActivityEntry
deriving Repr, DecidableEq

/-- `logActivity(action, componentId, componentName, actor, detail)`:
appends one line — but only if the activity-log file exists
(`if (existsSync(ACTIVITY_LOG)) appendFileSync(...)`). -/
def logActivity (env : PipelineEnv) (ts action : String)
    (componentId componentName : Option String) (actor detail : String) : PipelineEnv :=
  if env.activityLogExists then
    { env with activity := env.activity ++
        [{ timestamp := ts, action := action, componentId := componentId,
           componentName := componentName, actor := actor, detail := detail }] }
  else env

/-- The value `promoteComponent` returns: `{success: true, from, to,
component}` or `{success: false, reason}`. -/
inductive PromoteResult where
  | success (fromZone toZone : String) (component : Component)
  | failure (reason : String)
deriving Repr, DecidableEq

/-- `findIndex(c => c.id === componentId)` + `splice(idx, 1)`: locate the
first entry with the given id and return (elements before it, the entry,
elements after it); `none` when the id is absent. -/
def splitAtId (componentId : String) : List Component →
    Option (List Component × Component × List Component)
  | [] => none
  | c :: rest =>
    if c.id = componentId then some ([], c, rest)
    else
      match splitAtId componentId rest with
      | some (pre, x, post) => some (c :: pre, x, post)
      | none => none

/-- `nextZone === 'workshop' ? 'candidate' : nextZone === 'canopy' ?
'candidate' : 'stable'`. -/
def maturityFor (nextZone : String) : String :=
  if nextZone = "workshop" then "candidate"
  else if nextZone = "canopy" then "candidate"
  else "stable"

/-- `promoteComponent(componentId)`: walk the zone order `nursery →
workshop → canopy → stable`; at the first active zone containing the id,
splice the component out, set its zone/maturity/movedAt, push it onto the
next zone's array, persist (the returned `PipelineEnv` is the rewritten
document) and log one activity line; otherwise return the tagged failure. -/
def promoteComponent (now : String) (componentId : String) (env : PipelineEnv) :
    PromoteResult × PipelineEnv :=
  match splitAtId componentId env.pipeline.nursery with
  | some (pre, comp, post) =>
    let comp2 := { comp with
      zone := "workshop"
      maturity := maturityFor "workshop"
      movedAt := now }
    (PromoteResult.success "nursery" "workshop" comp2,
     logActivity
       { env with pipeline := { env.pipeline with
           nursery := pre ++ post
           workshop := env.pipeline.workshop ++ [comp2] } }
       now "promoted" (some comp2.id) (some comp2.name) "gardener"
       "Moved from nursery to workshop")
  | none =>
    match splitAtId componentId env.pipeline.workshop with
    | some (pre, comp, post) =>
      let comp2 := { comp with
        zone := "canopy"
        maturity := maturityFor "canopy"
        movedAt := now }
      (PromoteResult.success "workshop" "canopy" comp2,
       logActivity
         { env with pipeline := { env.pipeline with
             workshop := pre ++ post
             canopy := env.pipeline.canopy ++ [comp2] } }
         now "promoted" (some comp2.id) (some comp2.name) "gardener"
         "Moved from workshop to canopy")
    | none =>
      match splitAtId componentId env.pipeline.canopy with
      | some (pre, comp, post) =>
        let comp2 := { comp with
          zone := "stable"
          maturity := maturityFor "stable"
          movedAt := now }
        (PromoteResult.success "canopy" "stable" comp2,
         logActivity
           { env with pipeline := { env.pipeline with
               canopy := pre ++ post
               stable := env.pipeline.stable ++ [comp2] } }
           now "promoted" (some comp2.id) (some comp2.name) "gardener"
           "Moved from canopy to stable")
      | none =>
        (PromoteResult.failure ("Component " ++ componentId ++ " not found or already stable."),
         env)

/-- A nursery component used by the C6 counterexample and witness. -/
def componentN : Component :=
  { id := "COMP-001", name := "Chip", ctype := "ui-component", description := "d"
    zone := "nursery", maturity := "draft"
    createdAt := "2025-01-01T00:00:00.000Z", movedAt := "2025-01-01T00:00:00.000Z" }

/-- Environment in which the activity-log file does not exist. -/
def envNoLog : PipelineEnv :=
  { pipeline := { nursery := [componentN], workshop := [], canopy := [], stable := []
                  nextId := 2 }
    activityLogExists := false, activity := [] }

/-- C6 counterexample: when the activity-log file does not exist,
`promoteComponent` still succeeds and moves the component, but
`logActivity` silently appends nothing, so the promotion emits no activity
line — refuting the unconditional "appends one activity line". -/
theorem promote_activity_line_cx :
    (promoteComponent "2025-02-03T04:05:06.000Z" "COMP-001" envNoLog).1
      = PromoteResult.success "nursery" "workshop"
          { componentN with
            zone := "workshop"
            maturity := "candidate"
            movedAt := "2025-02-03T04:05:06.000Z" } ∧
    (promoteComponent "2025-02-03T04:05:06.000Z" "COMP-001" envNoLog).2.activity = [] := by
  decide

/-- C6 (amended): for a component in a non-terminal zone with immediate
successor, `promoteComponent` removes it from the old zone's array,
appends it to the successor's array with updated zone and `movedAt`,
persists the new document, and — provided the activity-log file exists —
appends exactly one activity line (none otherwise); if the id is in no
active zone (absent, or only in terminal `stable`) it returns the tagged
failure with the document untouched, without throwing. -/
theorem promote_moves_component :
    (∀ (now cid : String) (env : PipelineEnv) pre comp post,
      splitAtId cid env.pipeline.nursery = some (pre, comp, post) →
      (promoteComponent now cid env).1
          = PromoteResult.success "nursery" "workshop"
              { comp with zone := "workshop", maturity := "candidate", movedAt := now } ∧
      (promoteComponent now cid env).2.pipeline.nursery = pre ++ post ∧
      (promoteComponent now cid env).2.pipeline.workshop
          = env.pipeline.workshop
            ++ [{ comp with zone := "workshop", maturity := "candidate", movedAt := now }] ∧
      (env.activityLogExists = true →
        (promoteComponent now cid env).2.activity
          = env.activity ++
              [{ timestamp := now
                 action := "promoted"
                 componentId := some comp.id
                 componentName := some comp.name
                 actor := "gardener"
                 detail := "Moved from nursery to workshop" }]) ∧
      (env.activityLogExists = false →
        (promoteComponent now cid env).2.activity = env.activity)) ∧
    (∀ (now cid : String) (env : PipelineEnv) pre comp post,
      splitAtId cid env.pipeline.nursery = none →
      splitAtId cid env.pipeline.workshop = some (pre, comp, post) →
      (promoteComponent now cid env).1
          = PromoteResult.success "workshop" "canopy"
              { comp with zone := "canopy", maturity := "candidate", movedAt := now } ∧
      (promoteComponent now cid env).2.pipeline.workshop = pre ++ post ∧
      (promoteComponent now cid env).2.pipeline.canopy
          = env.pipeline.canopy
            ++ [{ comp with zone := "canopy", maturity := "candidate", movedAt := now }] ∧
      (env.activityLogExists = true →
        (promoteComponent now cid env).2.activity
          = env.activity ++
              [{ timestamp := now
                 action := "promoted"
                 componentId := some comp.id
                 componentName := some comp.name
                 actor := "gardener"
                 detail := "Moved from workshop to canopy" }])) ∧
    (∀ (now cid : String) (env : PipelineEnv) pre comp post,
      splitAtId cid env.pipeline.nursery = none →
      splitAtId cid env.pipeline.workshop = none →
      splitAtId cid env.pipeline.canopy = some (pre, comp, post) →
      (promoteComponent now cid env).1
          = PromoteResult.success "canopy" "stable"
              { comp with zone := "stable", maturity := "stable", movedAt := now } ∧
      (promoteComponent now cid env).2.pipeline.canopy = pre ++ post ∧
      (promoteComponent now cid env).2.pipeline.stable
          = env.pipeline.stable
            ++ [{ comp with zone := "stable", maturity := "stable", movedAt := now }] ∧
      (env.activityLogExists = true →
        (promoteComponent now cid env).2.activity
          = env.activity ++
              [{ timestamp := now
                 action := "promoted"
                 componentId := some comp.id
                 componentName := some comp.name
                 actor := "gardener"
                 detail := "Moved from canopy to stable" }])) ∧
    (∀ (now cid : String) (env : PipelineEnv),
      splitAtId cid env.pipeline.nursery = none →
      splitAtId cid env.pipeline.workshop = none →
      splitAtId cid env.pipeline.canopy = none →
      promoteComponent now cid env
        = (PromoteResult.failure ("Component " ++ cid ++ " not found or already stable."),
           env)) := by
  refine ⟨?_, ?_, ?_, ?_⟩
  · intro now cid env pre comp post h1
    rw [promoteComponent, h1]
    unfold logActivity
    dsimp only
    refine ⟨rfl, ?_, ?_, ?_, ?_⟩
    · split <;> rfl
    · split <;> rfl
    · intro hflag
      rw [hflag]
      rfl
    · intro hflag
      rw [hflag]
      rfl
  · intro now cid env pre comp post h1 h2
    rw [promoteComponent, h1, h2]
    unfold logActivity
    dsimp only
    refine ⟨rfl, ?_, ?_, ?_⟩
    · split <;> rfl
    · split <;> rfl
    · intro hflag
      rw [hflag]
      rfl
  · intro now cid env pre comp post h1 h2 h3
    rw [promoteComponent, h1, h2, h3]
    unfold logActivity
    dsimp only
    refine ⟨rfl, ?_, ?_, ?_⟩
    · split <;> rfl
    · split <;> rfl
    · intro hflag
      rw [hflag]
      rfl
  · intro now cid env h1 h2 h3
    rw [promoteComponent, h1, h2, h3]

/-- Environment in which the activity-log file exists, for the C6 witness. -/
def envWithLog : PipelineEnv :=
  { pipeline := { nursery := [componentN], workshop := [], canopy := [], stable := []
                  nextId := 2 }
    activityLogExists := true, activity := [] }

/-- Witness for the amended C6 on a concrete nursery promotion with the
activity log present. -/
theorem promote_moves_component_witness :
    splitAtId "COMP-001" envWithLog.pipeline.nursery = some ([], componentN, []) ∧
    (promoteComponent "2025-02-03T04:05:06.000Z" "COMP-001" envWithLog).1
      = PromoteResult.success "nursery" "workshop"
          { componentN with
            zone := "workshop"
            maturity := "candidate"
            movedAt := "2025-02-03T04:05:06.000Z" } :=
  ⟨by decide,
   (promote_moves_component.1 "2025-02-03T04:05:06.000Z" "COMP-001" envWithLog
      [] componentN [] (by decide)).1⟩

/-! ## Decision ledger (`decision-memory.mjs`: `appendDecision`, `queryDecisions`)

The ledger file is modelled at the character level (`List Char`), `none`
standing for a not-yet-existing file (`appendFileSync` creates it,
`queryDecisions` returns `[]` for it).  `JSON.stringify`/`JSON.parse` of
one record line are the parameters `enc`/`decode`; the claims assume of
them exactly what holds of JSON serialisation: decoding inverts encoding,
an encoded record contains no newline, and an encoded record is not
blank. -/

/-- JS `content.split('\n')` at the character level:
`"a\nb\n"` splits to `["a", "b", ""]`. -/
def splitOnChar (sep : Char) : List Char → List (List Char)
  | [] => [[]]
  | c :: rest =>
    if c = sep then [] :: splitOnChar sep rest
    else
      match splitOnChar sep rest with
      | [] => [[c]]
      | l :: ls => (c :: l) :: ls

/-- The caller-supplied part of a decision record (the `record` argument of
`appendDecision`); `dtype` renders the JS field `type`, `agents` the key
set of the per-agent verdict object, `body` the remaining payload. -/
structure DecisionInput where
  dtype : String
  zone : String
  componentId : String
  agents : List String
  body : String
deriving Repr, DecidableEq

/-- A full ledger entry: the generated `id` and `timestamp` plus the
caller-supplied record fields. -/
structure DecisionRecord where
  id : String
  timestamp : String
  dtype : String
  zone : String
  componentId : String
  agents : List String
  body : String
deriving Repr, DecidableEq

/-- `{ id: DEC-..., timestamp: ..., ...record }`. -/
def mkDecisionEntry (genId ts : String) (inp : DecisionInput) : DecisionRecord :=
  { id := genId, timestamp := ts, dtype := inp.dtype, zone := inp.zone
    componentId := inp.componentId, agents := inp.agents, body := inp.body }

/-- The decisions file content; `none` = file does not exist. -/
abbrev LedgerFile := Option (List Char)

/-- `appendDecision(record)`: build the entry, append one
`JSON.stringify(entry) + '\n'` line, return the entry. -/
def appendDecision (enc : DecisionRecord → List Char) (genId ts : String)
    (file : LedgerFile) (inp : DecisionInput) : DecisionRecord × LedgerFile :=
  let entry := mkDecisionEntry genId ts inp
  (entry, some ((file.getD []) ++ enc entry ++ ['\n']))

/-- N successive `appendDecision` calls (with their generated ids and
timestamps), returning the entries in append order and the final file. -/
def appendMany (enc : DecisionRecord → List Char) :
    List (String × String × DecisionInput) → LedgerFile →
    List DecisionRecord × LedgerFile
  | [], file => ([], file)
  | (gid, ts, inp) :: rest, file =>
    let r1 := appendDecision enc gid ts file inp
    let r2 := appendMany enc rest r1.2
    (r1.1 :: r2.1, r2.2)

/-- The filter object of `queryDecisions` (all fields optional). -/
structure DecisionFilter where
  componentId : Option String := none
  dtype : Option String := none
  zone : Option String := none
  agentId : Option String := none
deriving Repr, DecidableEq

/-- The empty filter `{}`. -/
def emptyFilter : DecisionFilter := {}

/-- `queryDecisions(filter)`: read the file (missing file → `[]`), split on
newlines, drop blank lines (`filter(line => line.trim())`), parse each line
skipping unparseable ones (`try JSON.parse catch null` + `filter(Boolean)`),
then apply the four optional filters (a JS `if (filter.x)` guard treats the
empty string as falsy, hence `jsOrNull`). -/
def queryDecisions (decode : List Char → Option DecisionRecord) (file : LedgerFile)
    (filter : DecisionFilter) : List DecisionRecord :=
  match file with
  | none => []
  | some content =>
    let lines := (splitOnChar '\n' content).filter (fun l => l.any (fun c => !c.isWhitespace))
    let ds0 := lines.filterMap decode
    let ds1 :=
      match jsOrNull filter.componentId with
      | some s => ds0.filter (fun d => d.componentId == s)
      | none => ds0
    let ds2 :=
      match jsOrNull filter.dtype with
      | some s => ds1.filter (fun d => d.dtype == s)
      | none => ds1
    let ds3 :=
      match jsOrNull filter.zone with
      | some s => ds2.filter (fun d => d.zone == s)
      | none => ds2
    match jsOrNull filter.agentId with
    | some s => ds3.filter (fun d => d.agents.contains s)
    | none => ds3

/-- The concatenation of the encoded lines of a record list, each
terminated by a newline — the file produced by appending them in order. -/
def encodeLines (enc : DecisionRecord → List Char) : List DecisionRecord → List Char
  | [] => []
  | e :: es => enc e ++ '\n' :: encodeLines enc es

theorem splitOnChar_append_line (sep : Char) :
    ∀ (l : List Char), sep ∉ l →
    ∀ rest, splitOnChar sep (l ++ sep :: rest) = l :: splitOnChar sep rest := by
  intro l
  induction l with
  | nil =>
    intro _ rest
    simp [splitOnChar]
  | cons c cs ih =>
    intro h rest
    have hc : ¬(c = sep) := fun he => h (by rw [he]; exact List.mem_cons_self _ _)
    have hcs : sep ∉ cs := fun hm => h (List.mem_cons_of_mem _ hm)
    simp only [List.cons_append, splitOnChar, List.append_eq]
    rw [if_neg hc, ih hcs rest]

theorem splitOnChar_encodeLines (enc : DecisionRecord → List Char) :
    ∀ (es : List DecisionRecord), (∀ e ∈ es, ('\n' : Char) ∉ enc e) →
    ∀ tail, splitOnChar '\n' (encodeLines enc es ++ tail)
      = es.map enc ++ splitOnChar '\n' tail := by
  intro es
  induction es with
  | nil =>
    intro _ tail
    simp [encodeLines]
  | cons e es ih =>
    intro h tail
    have h1 : ('\n' : Char) ∉ enc e := h e (List.mem_cons_self _ _)
    have h2 : ∀ x ∈ es, ('\n' : Char) ∉ enc x := fun x hx => h x (List.mem_cons_of_mem _ hx)
    have : encodeLines enc (e :: es) ++ tail
        = enc e ++ '\n' :: (encodeLines enc es ++ tail) := by
      simp [encodeLines]
    rw [this, splitOnChar_append_line '\n' (enc e) h1, ih h2 tail]
    simp

theorem filterMap_decode_enc (decode : List Char → Option DecisionRecord)
    (enc : DecisionRecord → List Char) :
    ∀ (es : List DecisionRecord), (∀ e ∈ es, decode (enc e) = some e) →
    (es.map enc).filterMap decode = es := by
  intro es
  induction es with
  | nil => intro _; rfl
  | cons e es ih =>
    intro h
    have h1 := h e (List.mem_cons_self _ _)
    have h2 : ∀ x ∈ es, decode (enc x) = some x := fun x hx => h x (List.mem_cons_of_mem _ hx)
    simp [List.filterMap_cons, h1, ih h2]

theorem appendMany_eq (enc : DecisionRecord → List Char) :
    ∀ (items : List (String × String × DecisionInput)) (file : LedgerFile),
    appendMany enc items file
      = (items.map (fun it => mkDecisionEntry it.1 it.2.1 it.2.2),
         if items.isEmpty then file
         else some ((file.getD []) ++
           encodeLines enc (items.map (fun it => mkDecisionEntry it.1 it.2.1 it.2.2)))) := by
  intro items
  induction items with
  | nil =>
    intro file
    simp [appendMany]
  | cons it rest ih =>
    intro file
    obtain ⟨gid, ts, inp⟩ := it
    simp only [appendMany, appendDecision, ih, List.map_cons]
    simp only [Prod.mk.injEq, true_and]
    cases rest with
    | nil => simp [encodeLines]
    | cons it2 rest2 =>
      simp only [List.isEmpty_cons, Bool.false_eq_true, if_false, Option.getD_some,
        encodeLines]
      simp [List.append_assoc]

theorem queryDecisions_clean (decode : List Char → Option DecisionRecord)
    (enc : DecisionRecord → List Char) (es : List DecisionRecord)
    (hrt : ∀ e ∈ es, decode (enc e) = some e)
    (hnl : ∀ e ∈ es, ('\n' : Char) ∉ enc e)
    (hnb : ∀ e ∈ es, (enc e).any (fun c => !c.isWhitespace) = true) :
    queryDecisions decode (some (encodeLines enc es)) emptyFilter = es := by
  have hsplit := splitOnChar_encodeLines enc es hnl []
  rw [List.append_nil] at hsplit
  have hq : queryDecisions decode (some (encodeLines enc es)) emptyFilter
      = ((splitOnChar '\n' (encodeLines enc es)).filter
          (fun l => l.any (fun c => !c.isWhitespace))).filterMap decode := rfl
  rw [hq, hsplit, show splitOnChar '\n' ([] : List Char) = [[]] from rfl,
    List.filter_append]
  have h1 : (es.map enc).filter (fun l => l.any (fun c => !c.isWhitespace)) = es.map enc := by
    rw [List.filter_eq_self]
    intro l hl
    obtain ⟨e, he, rfl⟩ := List.mem_map.mp hl
    exact hnb e he
  have h2 : ([[]] : List (List Char)).filter (fun l => l.any (fun c => !c.isWhitespace))
      = [] := rfl
  rw [h1, h2, List.append_nil]
  exact filterMap_decode_enc decode enc es hrt

/-- C7: ledger round-trip and corruption tolerance.  Appending N decision
records to a fresh ledger and reading with the empty filter returns
exactly those N entries in append order; a file holding two well-formed
runs with one unparseable line between them reads back as the well-formed
records only (the corrupted line is skipped, the read never fails as a
whole).  The hypotheses on `enc`/`decode` are the properties of
single-line JSON serialisation: decode inverts encode, encoded records
contain no newline and are not blank. -/
theorem ledger_roundtrip_skip_corrupt :
    (∀ (enc : DecisionRecord → List Char) (decode : List Char → Option DecisionRecord)
       (items : List (String × String × DecisionInput)),
      (∀ e ∈ items.map (fun it => mkDecisionEntry it.1 it.2.1 it.2.2),
        decode (enc e) = some e) →
      (∀ e ∈ items.map (fun it => mkDecisionEntry it.1 it.2.1 it.2.2),
        ('\n' : Char) ∉ enc e) →
      (∀ e ∈ items.map (fun it => mkDecisionEntry it.1 it.2.1 it.2.2),
        (enc e).any (fun c => !c.isWhitespace) = true) →
      queryDecisions decode (appendMany enc items none).2 emptyFilter
        = (appendMany enc items none).1 ∧
      (appendMany enc items none).1.length = items.length) ∧
    (∀ (enc : DecisionRecord → List Char) (decode : List Char → Option DecisionRecord)
       (es1 es2 : List DecisionRecord) (bad : List Char),
      (∀ e ∈ es1 ++ es2, decode (enc e) = some e) →
      (∀ e ∈ es1 ++ es2, ('\n' : Char) ∉ enc e) →
      (∀ e ∈ es1 ++ es2, (enc e).any (fun c => !c.isWhitespace) = true) →
      decode bad = none → ('\n' : Char) ∉ bad →
      queryDecisions decode
          (some (encodeLines enc es1 ++ (bad ++ '\n' :: encodeLines enc es2)))
          emptyFilter
        = es1 ++ es2 ∧
      (queryDecisions decode
          (some (encodeLines enc es1 ++ (bad ++ '\n' :: encodeLines enc es2)))
          emptyFilter).length = es1.length + es2.length) := by
  constructor
  · intro enc decode items hrt hnl hnb
    constructor
    · rw [appendMany_eq]
      dsimp only
      cases items with
      | nil => rfl
      | cons it rest =>
        simp only [List.isEmpty_cons, Bool.false_eq_true, if_false, Option.getD_none,
          List.nil_append]
        exact queryDecisions_clean decode enc _ hrt hnl hnb
    · rw [appendMany_eq]
      simp
  · intro enc decode es1 es2 bad hrt hnl hnb hbad hbadnl
    have hrt1 : ∀ e ∈ es1, decode (enc e) = some e :=
      fun e he => hrt e (List.mem_append_left _ he)
    have hrt2 : ∀ e ∈ es2, decode (enc e) = some e :=
      fun e he => hrt e (List.mem_append_right _ he)
    have hnl1 : ∀ e ∈ es1, ('\n' : Char) ∉ enc e :=
      fun e he => hnl e (List.mem_append_left _ he)
    have hnl2 : ∀ e ∈ es2, ('\n' : Char) ∉ enc e :=
      fun e he => hnl e (List.mem_append_right _ he)
    have hnb1 : ∀ e ∈ es1, (enc e).any (fun c => !c.isWhitespace) = true :=
      fun e he => hnb e (List.mem_append_left _ he)
    have hnb2 : ∀ e ∈ es2, (enc e).any (fun c => !c.isWhitespace) = true :=
      fun e he => hnb e (List.mem_append_right _ he)
    have hq : queryDecisions decode
        (some (encodeLines enc es1 ++ (bad ++ '\n' :: encodeLines enc es2))) emptyFilter
        = ((splitOnChar '\n'
              (encodeLines enc es1 ++ (bad ++ '\n' :: encodeLines enc es2))).filter
            (fun l => l.any (fun c => !c.isWhitespace))).filterMap decode := rfl
    have hsplit2 := splitOnChar_encodeLines enc es2 hnl2 []
    rw [List.append_nil] at hsplit2
    have hsplit : splitOnChar '\n'
        (encodeLines enc es1 ++ (bad ++ '\n' :: encodeLines enc es2))
        = es1.map enc ++ (bad :: (es2.map enc ++ [[]])) := by
      rw [splitOnChar_encodeLines enc es1 hnl1,
        splitOnChar_append_line '\n' bad hbadnl, hsplit2,
        show splitOnChar '\n' ([] : List Char) = [[]] from rfl]
    have h1 : (es1.map enc).filter (fun l => l.any (fun c => !c.isWhitespace))
        = es1.map enc := by
      rw [List.filter_eq_self]
      intro l hl
      obtain ⟨e, he, rfl⟩ := List.mem_map.mp hl
      exact hnb1 e he
    have h2 : (es2.map enc).filter (fun l => l.any (fun c => !c.isWhitespace))
        = es2.map enc := by
      rw [List.filter_eq_self]
      intro l hl
      obtain ⟨e, he, rfl⟩ := List.mem_map.mp hl
      exact hnb2 e he
    have h3 : ([[]] : List (List Char)).filter (fun l => l.any (fun c => !c.isWhitespace))
        = [] := rfl
    have key : queryDecisions decode
        (some (encodeLines enc es1 ++ (bad ++ '\n' :: encodeLines enc es2))) emptyFilter
        = es1 ++ es2 := by
      rw [hq, hsplit, List.filter_append, h1]
      cases hb : bad.any (fun c => !c.isWhitespace) with
      | false =>
        rw [List.filter_cons_of_neg (by rw [hb]; exact Bool.false_ne_true),
          List.filter_append, h2, h3, List.append_nil, List.filterMap_append,
          filterMap_decode_enc decode enc es1 hrt1, filterMap_decode_enc decode enc es2 hrt2]
      | true =>
        rw [List.filter_cons_of_pos (by rw [hb]),
          List.filter_append, h2, h3, List.append_nil, List.filterMap_append,
          filterMap_decode_enc decode enc es1 hrt1, List.filterMap_cons_none hbad,
          filterMap_decode_enc decode enc es2 hrt2]
    refine ⟨key, ?_⟩
    rw [key, List.length_append]

/-- Concrete encoder/decoder pair and inputs for the C7 witness. -/
def inpA : DecisionInput :=
  { dtype := "workshop_review", zone := "workshop", componentId := "toggle"
    agents := ["ts"], body := "passed" }

def inpB : DecisionInput :=
  { dtype := "canopy_review", zone := "canopy", componentId := "toggle"
    agents := ["ag"], body := "failed" }

def itemsW : List (String × String × DecisionInput) :=
  [("DEC-1", "t1", inpA), ("DEC-2", "t2", inpB)]

def recA : DecisionRecord := mkDecisionEntry "DEC-1" "t1" inpA

def recB : DecisionRecord := mkDecisionEntry "DEC-2" "t2" inpB

def encW : DecisionRecord → List Char :=
  fun r => if r = recA then "one".toList else if r = recB then "two".toList else "{}".toList

def decW : List Char → Option DecisionRecord :=
  fun l => if l = "one".toList then some recA else if l = "two".toList then some recB else none

/-- Witness for C7: appending two records and reading them back. -/
theorem ledger_roundtrip_skip_corrupt_witness :
    (∀ e ∈ itemsW.map (fun it => mkDecisionEntry it.1 it.2.1 it.2.2),
      decW (encW e) = some e) ∧
    queryDecisions decW (appendMany encW itemsW none).2 emptyFilter
      = (appendMany encW itemsW none).1 ∧
    (appendMany encW itemsW none).1.length = 2 :=
  ⟨by decide,
   (ledger_roundtrip_skip_corrupt.1 encW decW itemsW (by decide) (by decide) (by decide)).1,
   (ledger_roundtrip_skip_corrupt.1 encW decW itemsW (by decide) (by decide) (by decide)).2⟩

/-! ## Agentic tool-use chat loop (`agent-runner.mjs`: `agenticChatResponse`)

The completion service is the parameter `oracle b msgs`: the response to a
call with message history `msgs`, where `b` says whether the `tools`
registry was offered (the loop offers it; the forced final call does not).
Tool execution (`executeTool` with its injected `deps`) is the parameter
`exec`.  The `onToken` callbacks merely re-chunk the same text in 8-char
slices and `onDone` receives `finalText`, so the outcome structure carries
`finalText` plus instrumentation counters (completion calls, tool turns)
and the text contributed by the forced tool-free call. -/

/-- One content block of a completion response. -/
inductive CBlock where
  | text (s : String)
  | toolUse (name : String) (input : String) (id : String)
deriving Repr, DecidableEq

/-- A completion response: `stop_reason` and content blocks. -/
structure CResponse where
  stopReason : String
  content : List CBlock
deriving Repr, DecidableEq

/-- A message of the running history. -/
inductive ChatMsg where
  | user (content : String)
  | assistantBlocks (content : List CBlock)
  | toolResults (results : List (String × String))
deriving Repr, DecidableEq

/-- All text blocks of a response, concatenated in order (the tool_use
branch streams and accumulates every text block). -/
def textBlocks (content : List CBlock) : String :=
  String.join (content.filterMap (fun b =>
    match b with
    | CBlock.text s => some s
    | _ => none))

/-- `response.content.find(b => b.type === 'text')?.text ?? ''` — the final
and forced-final branches append only the first text block. -/
def firstTextBlock (content : List CBlock) : String :=
  match content.find? (fun b =>
    match b with
    | CBlock.text _ => true
    | _ => false) with
  | some (CBlock.text s) => s
  | _ => ""

/-- The observable outcome of `agenticChatResponse`: the text handed to
`onDone`, the number of loop iterations that processed tool calls, the
total number of completion calls, and the text contributed by the forced
tool-free call (`some` iff that call happened). -/
structure ChatOutcome where
  finalText : String
  toolTurns : Nat
  totalCalls : Nat
  forcedText : Option String
deriving Repr, DecidableEq

/-- The `for (let turn = 0; turn < MAX_TOOL_TURNS; turn++)` body, indexed by
the remaining turns: on `tool_use`, stream the text blocks, execute each
tool call, push the assistant content and tool results onto the history
and loop; on the last allowed turn additionally issue one tool-free
completion call and append its text; on any other stop reason append the
first text block and break. -/
def agenticChatLoop (oracle : Bool → List ChatMsg → CResponse)
    (exec : String → String → String) :
    Nat → List ChatMsg → String → Nat → Nat → ChatOutcome
  | 0, _msgs, finalText, calls, toolTurns =>
    { finalText := finalText, toolTurns := toolTurns, totalCalls := calls, forcedText := none }
  | n+1, msgs, finalText, calls, toolTurns =>
    let response := oracle true msgs
    if response.stopReason = "tool_use" then
      let finalText2 := finalText ++ textBlocks response.content
      let toolResults := response.content.filterMap (fun b =>
        match b with
        | CBlock.toolUse nm inp idt => some (idt, exec nm inp)
        | _ => none)
      let msgs2 := msgs ++ [ChatMsg.assistantBlocks response.content,
                            ChatMsg.toolResults toolResults]
      if n = 0 then
        let finalResponse := oracle false msgs2
        let t := firstTextBlock finalResponse.content
        { finalText := finalText2 ++ t, toolTurns := toolTurns + 1, totalCalls := calls + 2
          forcedText := some t }
      else
        agenticChatLoop oracle exec n msgs2 finalText2 (calls + 1) (toolTurns + 1)
    else
      { finalText := finalText ++ firstTextBlock response.content, toolTurns := toolTurns
        totalCalls := calls + 1, forcedText := none }

/-- `const MAX_TOOL_TURNS = 5`. -/
def MAX_TOOL_TURNS : Nat := 5

/-- `agenticChatResponse(opts)`: run the loop from the given history. -/
def agenticChatResponse (oracle : Bool → List ChatMsg → CResponse)
    (exec : String → String → String) (messages : List ChatMsg) : ChatOutcome :=
  agenticChatLoop oracle exec MAX_TOOL_TURNS messages "" 0 0

theorem string_append_ne_empty_right (a b : String) (h : b ≠ "") : a ++ b ≠ "" := by
  intro he
  apply h
  obtain ⟨la⟩ := a
  obtain ⟨lb⟩ := b
  have h2 : la ++ lb = ([] : List Char) := congrArg String.data he
  have h3 : lb = [] := (List.append_eq_nil.mp h2).2
  rw [h3]

theorem agenticChatLoop_bounds (oracle : Bool → List ChatMsg → CResponse)
    (exec : String → String → String) :
    ∀ (n : Nat) (msgs : List ChatMsg) (ft : String) (calls tt : Nat),
      (agenticChatLoop oracle exec n msgs ft calls tt).toolTurns ≤ tt + n ∧
      (agenticChatLoop oracle exec n msgs ft calls tt).totalCalls ≤ calls + n + 1 := by
  intro n
  induction n with
  | zero =>
    intro msgs ft calls tt
    exact ⟨Nat.le_refl _, Nat.le_succ _⟩
  | succ n ih =>
    intro msgs ft calls tt
    simp only [agenticChatLoop]
    by_cases hsr : (oracle true msgs).stopReason = "tool_use"
    · rw [if_pos hsr]
      by_cases hn : n = 0
      · subst hn
        rw [if_pos rfl]
        dsimp only
        exact ⟨by omega, by omega⟩
      · rw [if_neg hn]
        obtain ⟨h1, h2⟩ := ih _ _ (calls + 1) (tt + 1)
        exact ⟨h1.trans (by omega), h2.trans (by omega)⟩
    · rw [if_neg hsr]
      dsimp only
      exact ⟨by omega, by omega⟩

theorem agenticChatLoop_forced (oracle : Bool → List ChatMsg → CResponse)
    (exec : String → String → String)
    (hall : ∀ m, (oracle true m).stopReason = "tool_use") :
    ∀ (n : Nat) (msgs : List ChatMsg) (ft : String) (calls tt : Nat),
      ∃ (m : List ChatMsg) (pre : String),
        agenticChatLoop oracle exec (n + 1) msgs ft calls tt
          = { finalText := pre ++ firstTextBlock (oracle false m).content
              toolTurns := tt + (n + 1)
              totalCalls := calls + (n + 1) + 1
              forcedText := some (firstTextBlock (oracle false m).content) } := by
  intro n
  induction n with
  | zero =>
    intro msgs ft calls tt
    refine ⟨msgs ++ [ChatMsg.assistantBlocks (oracle true msgs).content,
        ChatMsg.toolResults ((oracle true msgs).content.filterMap (fun b =>
          match b with
          | CBlock.toolUse nm inp idt => some (idt, exec nm inp)
          | _ => none))],
      ft ++ textBlocks (oracle true msgs).content, ?_⟩
    rw [agenticChatLoop, if_pos (hall msgs), if_pos rfl]
  | succ n ih =>
    intro msgs ft calls tt
    obtain ⟨m, pre, heq⟩ := ih
      (msgs ++ [ChatMsg.assistantBlocks (oracle true msgs).content,
        ChatMsg.toolResults ((oracle true msgs).content.filterMap (fun b =>
          match b with
          | CBlock.toolUse nm inp idt => some (idt, exec nm inp)
          | _ => none))])
      (ft ++ textBlocks (oracle true msgs).content) (calls + 1) (tt + 1)
    refine ⟨m, pre, ?_⟩
    rw [agenticChatLoop, if_pos (hall msgs), if_neg (Nat.succ_ne_zero n), heq]
    simp only [ChatOutcome.mk.injEq]
    exact ⟨trivial, by omega, by omega, trivial⟩

/-- C8: for every completion-service oracle the loop terminates with at
most `MAX_TOOL_TURNS` tool turns and `MAX_TOOL_TURNS + 1` completion
calls; an oracle that requests tools on every turn exhausts exactly the 5
tool turns, triggers exactly one forced tool-free completion call, and the
delivered final text ends with that call's text — in particular it is
non-empty whenever the forced response carries text. -/
theorem agentic_loop_bounded :
    (∀ (oracle : Bool → List ChatMsg → CResponse) (exec : String → String → String)
       (msgs : List ChatMsg),
      (agenticChatResponse oracle exec msgs).toolTurns ≤ MAX_TOOL_TURNS ∧
      (agenticChatResponse oracle exec msgs).totalCalls ≤ MAX_TOOL_TURNS + 1) ∧
    (∀ (oracle : Bool → List ChatMsg → CResponse) (exec : String → String → String)
       (msgs : List ChatMsg),
      (∀ m, (oracle true m).stopReason = "tool_use") →
      (agenticChatResponse oracle exec msgs).toolTurns = MAX_TOOL_TURNS ∧
      (agenticChatResponse oracle exec msgs).totalCalls = MAX_TOOL_TURNS + 1 ∧
      ∃ (m : List ChatMsg) (t : String),
        (agenticChatResponse oracle exec msgs).forcedText = some t ∧
        t = firstTextBlock (oracle false m).content ∧
        (t ≠ "" → (agenticChatResponse oracle exec msgs).finalText ≠ "")) := by
  constructor
  · intro oracle exec msgs
    have h := agenticChatLoop_bounds oracle exec MAX_TOOL_TURNS msgs "" 0 0
    exact ⟨h.1.trans (by omega), h.2.trans (by omega)⟩
  · intro oracle exec msgs hall
    obtain ⟨m, pre, heq⟩ := agenticChatLoop_forced oracle exec hall 4 msgs "" 0 0
    have heq5 : agenticChatResponse oracle exec msgs
        = { finalText := pre ++ firstTextBlock (oracle false m).content
            toolTurns := 0 + (4 + 1)
            totalCalls := 0 + (4 + 1) + 1
            forcedText := some (firstTextBlock (oracle false m).content) } := heq
    rw [heq5]
    refine ⟨rfl, rfl, m, firstTextBlock (oracle false m).content, rfl, rfl, ?_⟩
    intro ht
    exact string_append_ne_empty_right pre _ ht

/-- A scripted stub that requests a tool call on every tools-enabled turn
and answers plain text when tools are withheld, plus a trivial tool
executor, for the C8 witness. -/
def oracleLoopW : Bool → List ChatMsg → CResponse :=
  fun withTools _ =>
    if withTools then
      { stopReason := "tool_use", content := [CBlock.toolUse "get_pipeline_state" "{}" "tu1"] }
    else
      { stopReason := "end_turn", content := [CBlock.text "All done."] }

def execLoopW : String → String → String := fun _ _ => "{}"

/-- Witness for C8: the always-tool stub terminates after exactly 5 tool
turns and 6 completion calls. -/
theorem agentic_loop_bounded_witness :
    (∀ m, (oracleLoopW true m).stopReason = "tool_use") ∧
    (agenticChatResponse oracleLoopW execLoopW []).toolTurns = MAX_TOOL_TURNS ∧
    (agenticChatResponse oracleLoopW execLoopW []).totalCalls = MAX_TOOL_TURNS + 1 :=
  ⟨fun _ => rfl,
   (agentic_loop_bounded.2 oracleLoopW execLoopW [] (fun _ => rfl)).1,
   (agentic_loop_bounded.2 oracleLoopW execLoopW [] (fun _ => rfl)).2.1⟩


/-! ## Path safety (`file-safety.mjs`: `validateWritePath`) and the
write-type tools of `executeTool` (`agent-runner.mjs`)

`path.normalize` (node, posix flavour) is implemented at the character
level: split on `/`, drop empty and `.` segments, resolve `..` against the
stack (keeping leading `..`s of a relative path, dropping them at the root
of an absolute one), rejoin, preserving a trailing separator and the
leading `/` of an absolute path; the empty result collapses to `.` / `/`.
The subsequent `.replace(/\\/g, '/')` is a character map. -/

/-- JS `s.includes(sub)`. -/
def jsIncludes (s sub : String) : Bool := decide (sub.data <:+: s.data)

/-- JS `s.startsWith(sub)`. -/
def jsStartsWith (s sub : String) : Bool := decide (sub.data <+: s.data)

/-- JS `s.endsWith(sub)`. -/
def jsEndsWith (s sub : String) : Bool := decide (sub.data <:+ s.data)

/-- The segment stack loop of node's `normalizeString`. -/
def normSegs (isAbs : Bool) : List (List Char) → List (List Char) → List (List Char)
  | stack, [] => stack
  | stack, seg :: rest =>
    if seg = [] ∨ seg = ['.'] then normSegs isAbs stack rest
    else if seg = ['.', '.'] then
      if stack ≠ [] ∧ stack.getLast? ≠ some ['.', '.'] then
        normSegs isAbs stack.dropLast rest
      else if isAbs then normSegs isAbs stack rest
      else normSegs isAbs (stack ++ [['.', '.']]) rest
    else normSegs isAbs (stack ++ [seg]) rest

/-- node `path.normalize` (posix) at the character level. -/
def normalizeChars (p : List Char) : List Char :=
  if p = [] then ['.']
  else
    let isAbs := p.head? == some '/'
    let trail := p.getLast? == some '/'
    let core := List.intercalate ['/'] (normSegs isAbs [] (splitOnChar '/' p))
    if core = [] then
      if isAbs then ['/'] else if trail then ['.', '/'] else ['.']
    else
      (if isAbs then '/' :: core else core) ++ (if trail then ['/'] else [])

/-- `normalize(relPath).replace(/\\/g, '/')`. -/
def normalizedWritePath (relPath : String) : String :=
  String.mk ((normalizeChars relPath.data).map (fun c => if c = '\\' then '/' else c))

/-- `{allowed, reason?}` returned by the validators. -/
structure WriteCheck where
  allowed : Bool
  reason : Option String
deriving Repr, DecidableEq

def BLOCKED_PREFIXES : List String := ["src/governance/", "src/server/", "node_modules/"]

def BLOCKED_FILES : List String :=
  ["src/data/decisions.jsonl", "src/data/activity-log.jsonl", "src/data/changes.jsonl",
   "src/data/pipeline-state.json", "src/library/storybook.js", "src/library/storybook.html",
   "src/library/shell.css", ".env"]

/-- The regex `[a-z][a-z0-9-]*`, anchored to the whole string. -/
def isLowerName (s : String) : Bool :=
  match s.data with
  | [] => false
  | c :: rest =>
    (decide ('a' ≤ c) && decide (c ≤ 'z')) &&
      rest.all (fun d =>
        (decide ('a' ≤ d) && decide (d ≤ 'z')) ||
        (decide ('0' ≤ d) && decide (d ≤ '9')) || d == '-')

/-- `^src/components/([a-z][a-z0-9-]*)/\1\.css$` (the back-reference forces
the file name to repeat the directory name). -/
def isComponentCssPath (p : String) : Bool :=
  match (splitOnChar '/' p.data).map (fun l => String.mk l) with
  | [s1, s2, name, file] =>
    s1 == "src" && s2 == "components" && isLowerName name && file == name ++ ".css"
  | _ => false

/-- `^src/components/([a-z][a-z0-9-]*)/\1\.spec\.json$`. -/
def isComponentSpecPath (p : String) : Bool :=
  match (splitOnChar '/' p.data).map (fun l => String.mk l) with
  | [s1, s2, name, file] =>
    s1 == "src" && s2 == "components" && isLowerName name && file == name ++ ".spec.json"
  | _ => false

/-- `^src/tokens/[a-z][a-z0-9-]*\.tokens\.json$` (the name class excludes
`.`, so the base is everything before the literal suffix). -/
def isTokenFilePath (p : String) : Bool :=
  match (splitOnChar '/' p.data).map (fun l => String.mk l) with
  | [s1, s2, fn] =>
    s1 == "src" && s2 == "tokens" && jsEndsWith fn ".tokens.json" &&
      isLowerName (String.mk (fn.data.take (fn.data.length - 12)))
  | _ => false

/-- `validateWritePath(relPath, mode)` from `file-safety.mjs`, clause for
clause: traversal/absolute check on the normalized path, blocked files,
blocked prefixes, the foundation.css patch-only rule, then the write
allowlist. -/
def validateWritePath (relPath : String) (mode : String) : WriteCheck :=
  let normalized := normalizedWritePath relPath
  if jsIncludes normalized ".." || jsStartsWith normalized "/" then
    { allowed := false, reason := some "Path traversal is not allowed" }
  else
    match BLOCKED_FILES.find? (fun b => normalized == b) with
    | some blocked =>
      { allowed := false, reason := some (blocked ++ " is a protected file and cannot be written") }
    | none =>
      match BLOCKED_PREFIXES.find? (fun bp => jsStartsWith normalized bp) with
      | some bp =>
        { allowed := false
          reason := some ("Files under " ++ bp
            ++ " are protected and cannot be written by the chat agent") }
      | none =>
        if normalized == "src/library/foundation.css" then
          if mode == "patch" then { allowed := true, reason := none }
          else
            { allowed := false
              reason := some "foundation.css can only be modified via patch_css, not full overwrite" }
        else if isComponentCssPath normalized then { allowed := true, reason := none }
        else if isComponentSpecPath normalized then { allowed := true, reason := none }
        else if isTokenFilePath normalized then { allowed := true, reason := none }
        else if normalized == "src/data/wiki.json" then { allowed := true, reason := none }
        else if normalized == "src/library/terrarium.css" then { allowed := true, reason := none }
        else
          { allowed := false
            reason := some ("Path '" ++ normalized ++ "' is not in the write allowlist") }

/-- JS `content.replace(find, replace)` with a string pattern: first
occurrence only; an empty pattern matches at the start. -/
def jsReplaceOnce (s find repl : String) : String :=
  if find = "" then repl ++ s
  else
    match s.splitOn find with
    | [] => s
    | [x] => x
    | x :: rest => x ++ repl ++ String.intercalate find rest

/-- JS `s.trimEnd()`. -/
def jsTrimEnd (s : String) : String :=
  String.mk ((s.data.reverse.dropWhile Char.isWhitespace).reverse)

/-- The write-type tool invocations of `executeTool` with the fields each
case reads.  `specIsObject` models `typeof toolInput.spec === 'object' &&
toolInput.spec` (truthy), `specContent`/`tokensContent` the serialised
JSON written to disk. -/
inductive WriteToolCall where
  | writeComponentCss (name css : String)
  | writeComponentSpec (name : String) (specIsObject : Bool) (specContent : String)
  | patchCss (path : String) (patches : List (String × String))
  | writeTokenFile (filename tokensContent : String)
  | updateWiki (key term category definition source : String) (rule : Option String)
  | updateTerrariumCss (name action : String)
deriving Repr, DecidableEq

/-- The storage `executeTool` touches: project files (the filesystem),
the change ledger, the activity ledger, the wiki store, and an
instrumentation log of every `deps.validateWritePath` invocation
(path, mode). -/
structure ToolFS where
  files : List (String × String)
  changes : List String
  activity : List String
  wiki : List (String × String)
  valLog : List (String × String)
deriving Repr, DecidableEq

/-- `writeFileSync`: overwrite or create. -/
def setFile (files : List (String × String)) (p c : String) : List (String × String) :=
  if (files.lookup p).isSome then
    files.map (fun kv => if kv.1 == p then (p, c) else kv)
  else files ++ [(p, c)]

/-- `addEntry(key, entry)` of the Living Reference (upsert, then the file
is rewritten). -/
def setWiki (wiki : List (String × String)) (key term : String) : List (String × String) :=
  if (wiki.lookup key).isSome then
    wiki.map (fun kv => if kv.1 == key then (key, term) else kv)
  else wiki ++ [(key, term)]

/-- A `deps.validateWritePath` invocation, recorded in the log. -/
def recordVal (fs : ToolFS) (p mode : String) : WriteCheck × ToolFS :=
  (validateWritePath p mode, { fs with valLog := fs.valLog ++ [(p, mode)] })

/-- The JSON string a tool returns: `{error: msg}` or a success payload. -/
inductive ToolResult where
  | ok (payload : String)
  | error (msg : String)
deriving Repr, DecidableEq

/-- The write-tool arm of `executeTool(toolName, toolInput, deps)`,
case for case.  The surrounding `try/catch` that turns any thrown error
into `{error: err.message}` appears as the explicit error results (e.g.
the `readFileSync` ENOENT of `update_terrarium_css`); `update_wiki` calls
`deps.addWikiEntry` directly, with no validator invocation. -/
def executeWriteTool (call : WriteToolCall) (fs : ToolFS) : ToolResult × ToolFS :=
  match call with
  | WriteToolCall.writeComponentCss name css =>
    let nameL := name.toLower
    let relPath := "src/components/" ++ nameL ++ "/" ++ nameL ++ ".css"
    let v := recordVal fs relPath "full"
    if !v.1.allowed then (ToolResult.error (v.1.reason.getD ""), v.2)
    else
      (ToolResult.ok relPath,
       { v.2 with
         files := setFile v.2.files relPath css
         changes := v.2.changes ++ ["Chat agent wrote component CSS: " ++ relPath]
         activity := v.2.activity ++ ["Wrote " ++ relPath] })
  | WriteToolCall.writeComponentSpec name specIsObject specContent =>
    if !specIsObject then (ToolResult.error "spec must be a JSON object", fs)
    else
      let nameL := name.toLower
      let relPath := "src/components/" ++ nameL ++ "/" ++ nameL ++ ".spec.json"
      let v := recordVal fs relPath "full"
      if !v.1.allowed then (ToolResult.error (v.1.reason.getD ""), v.2)
      else
        (ToolResult.ok relPath,
         { v.2 with
           files := setFile v.2.files relPath specContent
           changes := v.2.changes ++ ["Chat agent wrote component spec: " ++ relPath]
           activity := v.2.activity ++ ["Wrote " ++ relPath] })
  | WriteToolCall.patchCss path patches =>
    let v := recordVal fs path "patch"
    if !v.1.allowed then (ToolResult.error (v.1.reason.getD ""), v.2)
    else
      match v.2.files.lookup path with
      | none => (ToolResult.error ("File not found: " ++ path), v.2)
      | some content0 =>
        let step := patches.foldl
          (fun (acc : String × List String × List String) patch =>
            if jsIncludes acc.1 patch.1 then
              (jsReplaceOnce acc.1 patch.1 patch.2, acc.2.1 ++ [patch.1.take 60], acc.2.2)
            else (acc.1, acc.2.1, acc.2.2 ++ [patch.1.take 60]))
          (content0, [], [])
        if step.2.2 ≠ [] then
          (ToolResult.error ("Find string not found in file: "
             ++ String.intercalate "; " step.2.2), v.2)
        else
          (ToolResult.ok path,
           { v.2 with
             files := setFile v.2.files path step.1
             changes := v.2.changes ++ ["Chat agent patched CSS ("
               ++ toString step.2.1.length ++ " replacements): " ++ path]
             activity := v.2.activity ++ ["Patched " ++ path ++ " ("
               ++ toString step.2.1.length ++ " changes)"] })
  | WriteToolCall.writeTokenFile filename tokensContent =>
    if !(jsEndsWith filename ".tokens.json") then
      (ToolResult.error "Filename must end in .tokens.json", fs)
    else
      let relPath := "src/tokens/" ++ filename
      let v := recordVal fs relPath "full"
      if !v.1.allowed then (ToolResult.error (v.1.reason.getD ""), v.2)
      else
        let existed := (v.2.files.lookup relPath).isSome
        (ToolResult.ok relPath,
         { v.2 with
           files := setFile v.2.files relPath tokensContent
           changes := v.2.changes ++ ["Chat agent "
             ++ (if existed then "updated" else "created") ++ " token file: " ++ relPath]
           activity := v.2.activity ++ [(if existed then "Updated " else "Created ") ++ relPath] })
  | WriteToolCall.updateWiki key term _category _definition _source _rule =>
    (ToolResult.ok key,
     { fs with
       wiki := setWiki fs.wiki key term
       activity := fs.activity ++ ["Updated wiki entry: " ++ term] })
  | WriteToolCall.updateTerrariumCss name action =>
    let nameL := name.toLower
    let relPath := "src/library/terrarium.css"
    let v := recordVal fs relPath "full"
    if !v.1.allowed then (ToolResult.error (v.1.reason.getD ""), v.2)
    else
      match v.2.files.lookup relPath with
      | none => (ToolResult.error ("ENOENT: no such file or directory: " ++ relPath), v.2)
      | some content =>
        let importLine := "@import '../components/" ++ nameL ++ "/" ++ nameL ++ ".css';"
        if action == "add" then
          if jsIncludes content importLine then (ToolResult.ok "already present", v.2)
          else
            let utilsLine := "@import './utilities.css';"
            let content2 :=
              if jsIncludes content utilsLine then
                jsReplaceOnce content utilsLine (importLine ++ "\n" ++ utilsLine)
              else jsTrimEnd content ++ "\n" ++ importLine ++ "\n"
            (ToolResult.ok "added",
             { v.2 with
               files := setFile v.2.files relPath content2
               changes := v.2.changes ++ ["Chat agent added @import for " ++ nameL ++ " component"]
               activity := v.2.activity ++ ["Added @import for " ++ nameL ++ " in terrarium.css"] })
        else if action == "remove" then
          if !(jsIncludes content importLine) then (ToolResult.ok "not present", v.2)
          else
            let content2 := jsReplaceOnce (jsReplaceOnce content (importLine ++ "\n") "")
              importLine ""
            (ToolResult.ok "removed",
             { v.2 with
               files := setFile v.2.files relPath content2
               changes := v.2.changes ++ ["Chat agent removed @import for " ++ nameL ++ " component"]
               activity := v.2.activity ++ ["Removed @import for " ++ nameL ++ " from terrarium.css"] })
        else (ToolResult.error "action must be \"add\" or \"remove\"", v.2)

/-- The path a write tool validates, with the validation mode; `none` for
`update_wiki`, which performs no validation. -/
def writeTargetPath : WriteToolCall → Option (String × String)
  | WriteToolCall.writeComponentCss name _ =>
    some ("src/components/" ++ name.toLower ++ "/" ++ name.toLower ++ ".css", "full")
  | WriteToolCall.writeComponentSpec name _ _ =>
    some ("src/components/" ++ name.toLower ++ "/" ++ name.toLower ++ ".spec.json", "full")
  | WriteToolCall.patchCss path _ => some (path, "patch")
  | WriteToolCall.writeTokenFile filename _ => some ("src/tokens/" ++ filename, "full")
  | WriteToolCall.updateWiki _ _ _ _ _ _ => none
  | WriteToolCall.updateTerrariumCss _ _ => some ("src/library/terrarium.css", "full")

theorem normalizeChars_head_slash (p : List Char) (h : p.head? = some '/') :
    ∃ t, normalizeChars p = '/' :: t := by
  have hne : p ≠ [] := by
    intro he
    rw [he] at h
    cases h
  have hh : (p.head? == some '/') = true := by rw [h]; rfl
  simp only [normalizeChars, if_neg hne, hh]
  by_cases hcore : List.intercalate ['/'] (normSegs true [] (splitOnChar '/' p)) = []
  · rw [if_pos hcore]
    exact ⟨[], by simp⟩
  · rw [if_neg hcore]
    by_cases htr : (p.getLast? == some '/') = true
    · rw [if_pos htr]
      exact ⟨List.intercalate ['/'] (normSegs true [] (splitOnChar '/' p)) ++ ['/'], by simp⟩
    · rw [if_neg htr]
      exact ⟨List.intercalate ['/'] (normSegs true [] (splitOnChar '/' p)) ++ [], by simp⟩

theorem normalizedWritePath_abs (p : String) (h : jsStartsWith p "/" = true) :
    jsStartsWith (normalizedWritePath p) "/" = true := by
  have hpre : ("/" : String).data <+: p.data := of_decide_eq_true h
  obtain ⟨t, ht⟩ := hpre
  have hhead : p.data.head? = some '/' := by
    rw [← ht]
    rfl
  obtain ⟨t2, ht2⟩ := normalizeChars_head_slash p.data hhead
  rw [normalizedWritePath, ht2]
  apply decide_eq_true
  exact ⟨(t2.map (fun c => if c = '\\' then '/' else c)), rfl⟩

theorem validateWritePath_fail_closed :
    ∀ (p mode : String),
      (jsIncludes (normalizedWritePath p) ".." = true →
        (validateWritePath p mode).allowed = false) ∧
      (jsStartsWith p "/" = true → (validateWritePath p mode).allowed = false) ∧
      (normalizedWritePath p ∈ BLOCKED_FILES → (validateWritePath p mode).allowed = false) ∧
      (∀ bp ∈ BLOCKED_PREFIXES, jsStartsWith (normalizedWritePath p) bp = true →
        (validateWritePath p mode).allowed = false) := by
  intro p mode
  refine ⟨?_, ?_, ?_, ?_⟩
  · intro hinc
    simp only [validateWritePath]
    rw [hinc, Bool.true_or, if_pos rfl]
  · intro habs
    simp only [validateWritePath]
    rw [normalizedWritePath_abs p habs, Bool.or_true, if_pos rfl]
  · intro hmem
    simp only [validateWritePath]
    by_cases hc : (jsIncludes (normalizedWritePath p) ".."
        || jsStartsWith (normalizedWritePath p) "/") = true
    · rw [if_pos hc]
    · rw [if_neg hc]
      have hfind : ∃ b, BLOCKED_FILES.find? (fun b => normalizedWritePath p == b) = some b := by
        have : (BLOCKED_FILES.find? (fun b => normalizedWritePath p == b)).isSome := by
          rw [List.find?_isSome]
          exact ⟨normalizedWritePath p, hmem, by simp⟩
        exact Option.isSome_iff_exists.mp this
      obtain ⟨b, hb⟩ := hfind
      rw [hb]
  · intro bp hbp hstart
    simp only [validateWritePath]
    by_cases hc : (jsIncludes (normalizedWritePath p) ".."
        || jsStartsWith (normalizedWritePath p) "/") = true
    · rw [if_pos hc]
    · rw [if_neg hc]
      cases hf : BLOCKED_FILES.find? (fun b => normalizedWritePath p == b) with
      | some b => rfl
      | none =>
        have hfind : ∃ b, BLOCKED_PREFIXES.find?
            (fun bp => jsStartsWith (normalizedWritePath p) bp) = some b := by
          have : (BLOCKED_PREFIXES.find?
              (fun bp => jsStartsWith (normalizedWritePath p) bp)).isSome := by
            rw [List.find?_isSome]
            exact ⟨bp, hbp, hstart⟩
          exact Option.isSome_iff_exists.mp this
        obtain ⟨b, hb⟩ := hfind
        rw [hb]

theorem executeWriteTool_denied :
    ∀ (call : WriteToolCall) (fs : ToolFS) (tp mode : String),
      writeTargetPath call = some (tp, mode) →
      (validateWritePath tp mode).allowed = false →
      (∃ msg, (executeWriteTool call fs).1 = ToolResult.error msg) ∧
      (executeWriteTool call fs).2.files = fs.files ∧
      (executeWriteTool call fs).2.changes = fs.changes ∧
      (executeWriteTool call fs).2.wiki = fs.wiki := by
  intro call fs tp mode htp hval
  cases call with
  | writeComponentCss name css =>
    simp only [writeTargetPath, Option.some.injEq, Prod.mk.injEq] at htp
    obtain ⟨h1, h2⟩ := htp
    subst h1
    subst h2
    simp only [executeWriteTool, recordVal]
    rw [hval]
    exact ⟨⟨_, rfl⟩, rfl, rfl, rfl⟩
  | writeComponentSpec name specIsObject specContent =>
    simp only [writeTargetPath, Option.some.injEq, Prod.mk.injEq] at htp
    obtain ⟨h1, h2⟩ := htp
    subst h1
    subst h2
    cases specIsObject with
    | false => exact ⟨⟨_, rfl⟩, rfl, rfl, rfl⟩
    | true =>
      simp only [executeWriteTool, recordVal]
      rw [hval]
      exact ⟨⟨_, rfl⟩, rfl, rfl, rfl⟩
  | patchCss path patches =>
    simp only [writeTargetPath, Option.some.injEq, Prod.mk.injEq] at htp
    obtain ⟨h1, h2⟩ := htp
    subst h1
    subst h2
    simp only [executeWriteTool, recordVal]
    rw [hval]
    exact ⟨⟨_, rfl⟩, rfl, rfl, rfl⟩
  | writeTokenFile filename tokensContent =>
    simp only [writeTargetPath, Option.some.injEq, Prod.mk.injEq] at htp
    obtain ⟨h1, h2⟩ := htp
    subst h1
    subst h2
    cases hsuf : jsEndsWith filename ".tokens.json" with
    | false =>
      simp only [executeWriteTool, recordVal]
      rw [hsuf]
      exact ⟨⟨_, rfl⟩, rfl, rfl, rfl⟩
    | true =>
      simp only [executeWriteTool, recordVal]
      rw [hsuf, hval]
      exact ⟨⟨_, rfl⟩, rfl, rfl, rfl⟩
  | updateWiki key term category definition source rule =>
    simp only [writeTargetPath] at htp
    exact Option.noConfusion htp
  | updateTerrariumCss name action =>
    simp only [writeTargetPath, Option.some.injEq, Prod.mk.injEq] at htp
    obtain ⟨h1, h2⟩ := htp
    subst h1
    subst h2
    simp only [executeWriteTool, recordVal]
    rw [hval]
    exact ⟨⟨_, rfl⟩, rfl, rfl, rfl⟩

theorem executeWriteTool_writes_validated :
    ∀ (call : WriteToolCall) (fs : ToolFS) (tp mode : String),
      writeTargetPath call = some (tp, mode) →
      (executeWriteTool call fs).2.files ≠ fs.files →
      (validateWritePath tp mode).allowed = true := by
  intro call fs tp mode htp hch
  cases hv : (validateWritePath tp mode).allowed with
  | true => rfl
  | false => exact absurd (executeWriteTool_denied call fs tp mode htp hv).2.1 hch

theorem executeWriteTool_validates_first :
    ∀ (call : WriteToolCall) (fs : ToolFS) (tp mode : String),
      writeTargetPath call = some (tp, mode) →
      (executeWriteTool call fs).2.valLog = fs.valLog ++ [(tp, mode)] ∨
      ∃ msg, executeWriteTool call fs = (ToolResult.error msg, fs) := by
  intro call fs tp mode htp
  cases call with
  | writeComponentCss name css =>
    simp only [writeTargetPath, Option.some.injEq, Prod.mk.injEq] at htp
    obtain ⟨h1, h2⟩ := htp
    subst h1
    subst h2
    left
    simp only [executeWriteTool, recordVal]
    split <;> rfl
  | writeComponentSpec name specIsObject specContent =>
    simp only [writeTargetPath, Option.some.injEq, Prod.mk.injEq] at htp
    obtain ⟨h1, h2⟩ := htp
    subst h1
    subst h2
    cases specIsObject with
    | false => exact Or.inr ⟨_, rfl⟩
    | true =>
      left
      simp only [executeWriteTool, recordVal, Bool.not_true, Bool.false_eq_true, if_false]
      split <;> rfl
  | patchCss path patches =>
    simp only [writeTargetPath, Option.some.injEq, Prod.mk.injEq] at htp
    obtain ⟨h1, h2⟩ := htp
    subst h1
    subst h2
    left
    simp only [executeWriteTool, recordVal]
    split
    · rfl
    · split
      · rfl
      · split <;> rfl
  | writeTokenFile filename tokensContent =>
    simp only [writeTargetPath, Option.some.injEq, Prod.mk.injEq] at htp
    obtain ⟨h1, h2⟩ := htp
    subst h1
    subst h2
    cases hsuf : jsEndsWith filename ".tokens.json" with
    | false =>
      right
      refine ⟨"Filename must end in .tokens.json", ?_⟩
      simp only [executeWriteTool]
      rw [hsuf]
      rfl
    | true =>
      left
      simp only [executeWriteTool, recordVal]
      rw [hsuf]
      simp only [Bool.not_true, Bool.false_eq_true, if_false]
      split <;> rfl
  | updateWiki key term category definition source rule =>
    simp only [writeTargetPath] at htp
    exact Option.noConfusion htp
  | updateTerrariumCss name action =>
    simp only [writeTargetPath, Option.some.injEq, Prod.mk.injEq] at htp
    obtain ⟨h1, h2⟩ := htp
    subst h1
    subst h2
    left
    simp only [executeWriteTool, recordVal]
    split
    · rfl
    · split
      · rfl
      · split
        · split <;> rfl
        · split
          · split <;> rfl
          · rfl

/-- An empty storage state for the C9 counterexample and witness. -/
def fs0 : ToolFS := { files := [], changes := [], activity := [], wiki := [], valLog := [] }

/-- C9 counterexample: (1) `validateWritePath` does return `allowed` for a
path containing `..` — `src/components/toggle/../toggle/toggle.css`
normalizes into the allowlist; (2) `update_wiki` touches the wiki store
without any validator invocation. -/
theorem write_path_validation_cx :
    (validateWritePath "src/components/toggle/../toggle/toggle.css" "full").allowed = true ∧
    (executeWriteTool
        (WriteToolCall.updateWiki "spark" "Spark" "Ecosystem" "def" "poc" none) fs0).2.valLog
      = [] ∧
    (executeWriteTool
        (WriteToolCall.updateWiki "spark" "Spark" "Ecosystem" "def" "poc" none) fs0).2.wiki
      = [("spark", "Spark")] := by
  refine ⟨by decide, rfl, rfl⟩

/-- C9 (amended): each of the five path-parameterised write tools
(`write_component_css`, `write_component_spec`, `patch_css`,
`write_token_file`, `update_terrarium_css`) validates its target path
before touching storage: when validation denies, the result is a
structured error and files/changes/wiki are untouched; whenever files
change, validation of the target path succeeded; every execution either
records exactly one validator invocation of the target path or returns an
early structured error with the state untouched.  `update_wiki` writes
the fixed wiki store with no validator call.  `validateWritePath` never
allows a path whose normalized form contains `..`, an absolute path, a
protected ledger/governance file, or a protected directory prefix (a
`..` that normalizes away inside the allowlist is allowed, per the
counterexample). -/
theorem write_tools_validated :
    (∀ (call : WriteToolCall) (fs : ToolFS) (tp mode : String),
      writeTargetPath call = some (tp, mode) →
      (validateWritePath tp mode).allowed = false →
      (∃ msg, (executeWriteTool call fs).1 = ToolResult.error msg) ∧
      (executeWriteTool call fs).2.files = fs.files ∧
      (executeWriteTool call fs).2.changes = fs.changes ∧
      (executeWriteTool call fs).2.wiki = fs.wiki) ∧
    (∀ (call : WriteToolCall) (fs : ToolFS) (tp mode : String),
      writeTargetPath call = some (tp, mode) →
      (executeWriteTool call fs).2.files ≠ fs.files →
      (validateWritePath tp mode).allowed = true) ∧
    (∀ (call : WriteToolCall) (fs : ToolFS) (tp mode : String),
      writeTargetPath call = some (tp, mode) →
      (executeWriteTool call fs).2.valLog = fs.valLog ++ [(tp, mode)] ∨
      ∃ msg, executeWriteTool call fs = (ToolResult.error msg, fs)) ∧
    (∀ (p mode : String),
      (jsIncludes (normalizedWritePath p) ".." = true →
        (validateWritePath p mode).allowed = false) ∧
      (jsStartsWith p "/" = true → (validateWritePath p mode).allowed = false) ∧
      (normalizedWritePath p ∈ BLOCKED_FILES → (validateWritePath p mode).allowed = false) ∧
      (∀ bp ∈ BLOCKED_PREFIXES, jsStartsWith (normalizedWritePath p) bp = true →
        (validateWritePath p mode).allowed = false)) :=
  ⟨executeWriteTool_denied, executeWriteTool_writes_validated,
   executeWriteTool_validates_first, validateWritePath_fail_closed⟩

/-- Witness for C9: `patch_css` aimed at the protected decisions ledger is
denied, returns a structured error, and writes nothing. -/
theorem write_tools_validated_witness :
    writeTargetPath (WriteToolCall.patchCss "src/data/decisions.jsonl" [])
      = some ("src/data/decisions.jsonl", "patch") ∧
    (validateWritePath "src/data/decisions.jsonl" "patch").allowed = false ∧
    (∃ msg, (executeWriteTool (WriteToolCall.patchCss "src/data/decisions.jsonl" []) fs0).1
      = ToolResult.error msg) ∧
    (executeWriteTool (WriteToolCall.patchCss "src/data/decisions.jsonl" []) fs0).2.files
      = fs0.files :=
  ⟨rfl, by decide,
   (write_tools_validated.1 (WriteToolCall.patchCss "src/data/decisions.jsonl" []) fs0
      "src/data/decisions.jsonl" "patch" rfl (by decide)).1,
   (write_tools_validated.1 (WriteToolCall.patchCss "src/data/decisions.jsonl" []) fs0
      "src/data/decisions.jsonl" "patch" rfl (by decide)).2.1⟩

end Terarrium
